import Mathlib

/-
  Verification of the membership-lifecycle and billing-ledger core of the
  shivlibrary backend (src/Backend/routes/students.js and
  src/Backend/routes/collections.js).

  The routes are shallowly embedded: each Express handler that mutates state
  becomes a function from a database value (plus request data) to
  `Except ApiErr DB`.  A handler that runs inside BEGIN/COMMIT and rolls back
  on every error path is modelled by returning `.error e` (the pre-state is
  unchanged) or `.ok db2` (the committed post-state).  The DELETE handler,
  which issues four independent auto-committed pool queries with no
  transaction, is modelled separately with an explicit fault schedule so that
  the committed prefix of the cascade is visible.

  Money amounts are rationals (request values that parse to a finite number);
  dates are integers.  The JavaScript NaN value is modelled at the one place
  the routes test for it (the Enroll validation guards) via `JVal`; handlers
  that never test for NaN are modelled on number-valued requests.
-/

namespace ShivLib

/-- Error kinds of the specification taxonomy (section 7): ValidationError,
Conflict, NotFound, Internal.  Every return site of the routes is mapped to
the kind the specification assigns to it (malformed input 400s to
validation, contention 400s to conflict, absent rows to notFound, thrown
storage errors to internal). -/
inductive ApiErr
  | validation
  | conflict
  | notFound
  | internal
  deriving Repr, DecidableEq

/-- A JavaScript request value for a money field: absent (undefined or another
falsy value), a value whose parseFloat is NaN, or a finite number (modelled
as a rational). -/
inductive JVal
  | missing
  | nan
  | num (q : ℚ)
  deriving Repr, DecidableEq

/-- The parse patterns of the routes, parseFloat(x || 0) and
(x !== undefined ? parseFloat(x) : 0): an absent field parses to 0, a
NaN-valued field to none, a number to itself. -/
def JVal.parse : JVal → Option ℚ
  | .missing => some 0
  | .nan => none
  | .num q => some q

/-- The Enroll validation guard for one money input, isNaN(v) || v < 0:
returns the parsed value only when it is a genuine non-negative number. -/
def parseNonneg (v : JVal) : Option ℚ :=
  match v.parse with
  | none => none
  | some q => if q < 0 then none else some q

/-- Persisted status label values. -/
inductive MStatus
  | active
  | expired
  deriving Repr, DecidableEq

/-- The status computation of the routes:
new Date(membership_end) < new Date() gives expired, otherwise active.
Dates are modelled as integers, now being the current timestamp. -/
def calcStatus (membershipEnd now : ℤ) : MStatus :=
  if membershipEnd < now then .expired else .active

/-- One row of the students table (the Member head record).  Columns the
claims never mention (images, remark, registration numbers) are omitted. -/
structure Student where
  id : ℕ
  name : String
  email : Option String
  phone : Option String
  address : Option String
  branchId : ℕ
  membershipStart : ℤ
  membershipEnd : ℤ
  totalFee : ℚ
  amountPaid : ℚ
  dueAmount : ℚ
  cash : ℚ
  online : ℚ
  securityMoney : ℚ
  discount : ℚ
  lockerId : Option ℕ
  isActive : Bool
  status : MStatus
  deriving Repr, DecidableEq

/-- One row of the student_membership_history table (a billing-period
snapshot). -/
structure HistoryRow where
  id : ℕ
  studentId : ℕ
  name : String
  membershipStart : ℤ
  membershipEnd : ℤ
  status : MStatus
  totalFee : ℚ
  amountPaid : ℚ
  dueAmount : ℚ
  cash : ℚ
  online : ℚ
  securityMoney : ℚ
  discount : ℚ
  seatId : Option ℕ
  shiftId : Option ℕ
  branchId : ℕ
  lockerId : Option ℕ
  deriving Repr, DecidableEq

/-- One row of the locker table. -/
structure Locker where
  id : ℕ
  isAssigned : Bool
  studentId : Option ℕ
  deriving Repr, DecidableEq

/-- One row of the seat_assignments table.  The routes insert rows with a
NULL seat_id when shift_ids are sent without a seat_id, so the seat
reference is optional. -/
structure SeatAssignment where
  seatId : Option ℕ
  shiftId : ℕ
  studentId : ℕ
  deriving Repr, DecidableEq

/-- The database state the lifecycle core reads and writes.  seats and
schedules hold the ids of the reference rows (only existence is consulted).
nextStudentId and nextHistoryId model the serial id sequences. -/
structure DB where
  students : List Student
  history : List HistoryRow
  lockers : List Locker
  assignments : List SeatAssignment
  seats : List ℕ
  schedules : List ℕ
  nextStudentId : ℕ
  nextHistoryId : ℕ
  deriving Repr, DecidableEq

/-- UPDATE ... WHERE id = i: applies f to every row whose id matches (ids are
unique in a well-formed database, so at most one row changes). -/
def updById {α : Type} (idOf : α → ℕ) (i : ℕ) (f : α → α) (l : List α) : List α :=
  l.map fun x => if idOf x == i then f x else x

/-- UPDATE locker SET is_assigned = true, student_id = sid WHERE id = lk. -/
def bindLocker (ls : List Locker) (lk sid : ℕ) : List Locker :=
  updById Locker.id lk (fun l => { l with isAssigned := true, studentId := some sid }) ls

/-- UPDATE locker SET is_assigned = false, student_id = NULL WHERE id = lk. -/
def releaseLockerById (ls : List Locker) (lk : ℕ) : List Locker :=
  updById Locker.id lk (fun l => { l with isAssigned := false, studentId := none }) ls

/-- UPDATE locker SET is_assigned = false, student_id = NULL
WHERE student_id = sid. -/
def releaseLockersOf (ls : List Locker) (sid : ℕ) : List Locker :=
  ls.map fun l =>
    if l.studentId == some sid then { l with isAssigned := false, studentId := none } else l

/-- The id selected by ORDER BY id DESC LIMIT 1 over the history rows of one
member: the largest history id of that member, if any row exists. -/
def latestHistId (hist : List HistoryRow) (sid : ℕ) : Option ℕ :=
  ((hist.filter fun r => r.studentId == sid).map fun r => r.id).max?

/-- The Edit history write: UPDATE student_membership_history SET ...
WHERE id = (SELECT id FROM student_membership_history WHERE student_id = sid
ORDER BY id DESC LIMIT 1).  When the member has no history row the update
touches nothing. -/
def overwriteLatest (hist : List HistoryRow) (sid : ℕ) (f : HistoryRow → HistoryRow) :
    List HistoryRow :=
  match latestHistId hist sid with
  | none => hist
  | some tid => updById HistoryRow.id tid f hist

/-- PUT /api/collections/:historyId (ApplyPayment), collections.js lines
141-218.  amount = none models a request whose payment_amount fails the
typeof number test; method is the payment_method string.  The handler runs
in one transaction, so every error return models a rollback to the
pre-state. -/
def applyPayment (db : DB) (historyId : ℕ) (amount : Option ℚ) (method : String) :
    Except ApiErr DB :=
  match amount with
  | none => .error .validation
  | some a =>
    if a ≤ 0 then .error .validation
    else if method ≠ "cash" ∧ method ≠ "online" then .error .validation
    else
      match db.history.find? (fun r => r.id == historyId) with
      | none => .error .notFound
      | some h =>
        if a > h.dueAmount + 1 / 100 then .error .conflict
        else
          match db.students.find? (fun s => s.id == h.studentId) with
          | none => .error .notFound
          | some s =>
            .ok { db with
              students := updById Student.id h.studentId (fun st =>
                { st with
                  cash := s.cash + (if method = "cash" then a else 0)
                  online := s.online + (if method = "online" then a else 0)
                  amountPaid := s.amountPaid + a
                  dueAmount := s.dueAmount - a }) db.students
              history := updById HistoryRow.id historyId (fun r =>
                { r with
                  cash := h.cash + (if method = "cash" then a else 0)
                  online := h.online + (if method = "online" then a else 0)
                  amountPaid := h.amountPaid + a
                  dueAmount := h.dueAmount - a }) db.history }

/-- The committed state after an ApplyPayment request: the new state on
success, the unchanged pre-state on any error (the handler rolls the
transaction back). -/
def applyPaymentRun (db : DB) (historyId : ℕ) (amount : Option ℚ) (method : String) : DB :=
  match applyPayment db historyId amount method with
  | .ok db2 => db2
  | .error _ => db

/-- Request body of POST /api/students (Enroll), students.js lines 490-685.
Money fields are JVal because this is the one handler that tests isNaN. -/
structure EnrollReq where
  name : Option String
  email : Option String
  phone : Option String
  address : Option String
  branchId : Option ℕ
  membershipStart : Option ℤ
  membershipEnd : Option ℤ
  totalFee : JVal
  amountPaid : JVal
  discount : JVal
  cash : JVal
  online : JVal
  securityMoney : JVal
  seatId : Option ℕ
  shiftIds : List ℕ
  lockerId : Option ℕ
  deriving Repr, DecidableEq

/-- The Enroll seat/shift validation block (students.js lines 555-583): runs
only when a seat id is sent together with a nonempty shift list; checks that
the seat exists, that every shift exists, and that no assignment row exists
for any requested (seat, shift) pair, in that order. -/
def enrollSeatCheck (db : DB) (seatId : Option ℕ) (shiftIds : List ℕ) : Except ApiErr Unit :=
  match seatId with
  | none => .ok ()
  | some st =>
    if shiftIds.isEmpty then .ok ()
    else if ! db.seats.contains st then .error .notFound
    else if shiftIds.any (fun sh => ! db.schedules.contains sh) then .error .notFound
    else if shiftIds.any (fun sh =>
        db.assignments.any fun a => a.seatId == some st && a.shiftId == sh) then
      .error .conflict
    else .ok ()

/-- The Enroll locker validation block (students.js lines 585-597): the
locker must exist and must not be assigned. -/
def enrollLockerCheck (db : DB) (lockerId : Option ℕ) : Except ApiErr Unit :=
  match lockerId with
  | none => .ok ()
  | some lk =>
    match db.lockers.find? (fun l => l.id == lk) with
    | none => .error .notFound
    | some l => if l.isAssigned then .error .conflict else .ok ()

/-- POST /api/students (Enroll), students.js lines 490-685.  Validates the
required fields and each money input (isNaN || negative rejects with no
write), checks seat/shift and locker availability, then inserts the Member
head, binds the locker, inserts one assignment row per shift, and appends
one history row, all in one transaction. -/
def enroll (db : DB) (now : ℤ) (r : EnrollReq) : Except ApiErr DB :=
  match r.name, r.branchId, r.membershipStart, r.membershipEnd with
  | some nm, some bid, some ms, some me =>
    match parseNonneg r.totalFee, parseNonneg r.amountPaid, parseNonneg r.discount,
        parseNonneg r.cash, parseNonneg r.online, parseNonneg r.securityMoney with
    | some fee, some paid, some disc, some csh, some onl, some sec =>
      let due := fee - disc - paid
      match enrollSeatCheck db r.seatId r.shiftIds with
      | .error e => .error e
      | .ok _ =>
        match enrollLockerCheck db r.lockerId with
        | .error e => .error e
        | .ok _ =>
          let sid := db.nextStudentId
          let st := calcStatus me now
          let newS : Student :=
            { id := sid, name := nm, email := r.email, phone := r.phone,
              address := r.address, branchId := bid, membershipStart := ms,
              membershipEnd := me, totalFee := fee, amountPaid := paid,
              dueAmount := due, cash := csh, online := onl, securityMoney := sec,
              discount := disc, lockerId := r.lockerId, isActive := true, status := st }
          let lockers1 :=
            match r.lockerId with
            | some lk => bindLocker db.lockers lk sid
            | none => db.lockers
          let newH : HistoryRow :=
            { id := db.nextHistoryId, studentId := sid, name := nm,
              membershipStart := ms, membershipEnd := me, status := st,
              totalFee := fee, amountPaid := paid, dueAmount := due, cash := csh,
              online := onl, securityMoney := sec, discount := disc,
              seatId := r.seatId, shiftId := r.shiftIds.head?, branchId := bid,
              lockerId := r.lockerId }
          .ok { db with
            students := db.students ++ [newS]
            lockers := lockers1
            assignments := db.assignments ++
              r.shiftIds.map (fun sh => SeatAssignment.mk r.seatId sh sid)
            history := db.history ++ [newH]
            nextStudentId := db.nextStudentId + 1
            nextHistoryId := db.nextHistoryId + 1 }
    | _, _, _, _, _, _ => .error .validation
  | _, _, _, _ => .error .validation

/-- Request body of PUT /api/students/:id (Edit), students.js lines 687-821.
The handler applies parseFloat to total_fee, amount_paid and discount and
passes cash, online and security_money through unparsed; none of them is
range-checked, so they are modelled as plain rationals (number-valued
requests). -/
structure EditReq where
  name : Option String
  phone : Option String
  address : Option String
  email : Option String
  branchId : Option ℕ
  membershipStart : Option ℤ
  membershipEnd : Option ℤ
  totalFee : ℚ
  amountPaid : ℚ
  discount : ℚ
  cash : ℚ
  online : ℚ
  securityMoney : ℚ
  seatId : Option ℕ
  shiftIds : List ℕ
  lockerId : Option ℕ
  deriving Repr, DecidableEq

/-- The locker validation block shared by Edit (students.js lines 715-725)
and Renew (lines 927-937): the requested locker must exist, and must not be
assigned to a different member. -/
def editLockerCheck (db : DB) (lockerId : Option ℕ) (sid : ℕ) : Except ApiErr Unit :=
  match lockerId with
  | none => .ok ()
  | some lk =>
    match db.lockers.find? (fun l => l.id == lk) with
    | none => .error .notFound
    | some l =>
      if l.isAssigned && l.studentId != some sid then .error .conflict else .ok ()

/-- PUT /api/students/:id (Edit), students.js lines 687-821.  Validates the
required fields, checks the requested locker, releases the locker the member
previously held, rewrites the Member head with the request values
(due = fee - discount - amount_paid), binds the requested locker, replaces
the seat assignments of the member with the requested (seat, shift) rows
without any availability check, and overwrites the most recent history row,
all in one transaction.  A missing member row makes the previous-locker read
throw, which the handler maps to a 500 after rollback. -/
def editStudent (db : DB) (now : ℤ) (sid : ℕ) (r : EditReq) : Except ApiErr DB :=
  match r.name, r.phone, r.address, r.branchId, r.membershipStart, r.membershipEnd with
  | some nm, some ph, some ad, some bid, some ms, some me =>
    let fee := r.totalFee
    let paid := r.amountPaid
    let disc := r.discount
    let due := fee - disc - paid
    let st := calcStatus me now
    match editLockerCheck db r.lockerId sid with
    | .error e => .error e
    | .ok _ =>
      match db.students.find? (fun s => s.id == sid) with
      | none => .error .internal
      | some s0 =>
        let lockers1 :=
          match s0.lockerId with
          | some pl => releaseLockerById db.lockers pl
          | none => db.lockers
        let students1 := updById Student.id sid (fun s =>
          { s with
            name := nm
            email := r.email
            phone := some ph
            address := some ad
            branchId := bid
            membershipStart := ms
            membershipEnd := me
            totalFee := fee
            amountPaid := paid
            dueAmount := due
            cash := r.cash
            online := r.online
            securityMoney := r.securityMoney
            status := st
            lockerId := r.lockerId
            discount := disc }) db.students
        let lockers2 :=
          match r.lockerId with
          | some lk => bindLocker lockers1 lk sid
          | none => lockers1
        let history1 := overwriteLatest db.history sid fun row =>
          { row with
            name := nm
            membershipStart := ms
            membershipEnd := me
            status := st
            totalFee := fee
            amountPaid := paid
            dueAmount := due
            cash := r.cash
            online := r.online
            securityMoney := r.securityMoney
            discount := disc
            seatId := r.seatId
            shiftId := r.shiftIds.head?
            branchId := bid
            lockerId := r.lockerId }
        .ok { db with
          students := students1
          lockers := lockers2
          assignments := (db.assignments.filter fun a => a.studentId != sid) ++
            r.shiftIds.map (fun sh => SeatAssignment.mk r.seatId sh sid)
          history := history1 }
  | _, _, _, _, _, _ => .error .validation

/-- Request body of POST /api/students/:id/renew (Renew), students.js lines
882-1036.  The handler applies parseFloat without any range check, so money
fields are modelled as plain rationals (number-valued requests). -/
structure RenewReq where
  name : Option String
  phone : Option String
  email : Option String
  address : Option String
  branchId : Option ℕ
  membershipStart : Option ℤ
  membershipEnd : Option ℤ
  totalFee : ℚ
  cash : ℚ
  online : ℚ
  securityMoney : ℚ
  discount : ℚ
  seatId : Option ℕ
  shiftIds : List ℕ
  lockerId : Option ℕ
  deriving Repr, DecidableEq

/-- The Renew seat/shift validation block (students.js lines 914-925): for
each requested shift, conflict when an assignment row for the (seat, shift)
pair is held by a different member. -/
def renewSeatCheck (db : DB) (seatId : Option ℕ) (shiftIds : List ℕ) (sid : ℕ) :
    Except ApiErr Unit :=
  match seatId with
  | none => .ok ()
  | some st =>
    if shiftIds.isEmpty then .ok ()
    else if shiftIds.any (fun sh => db.assignments.any fun a =>
        a.seatId == some st && a.shiftId == sh && a.studentId != sid) then
      .error .conflict
    else .ok ()

/-- POST /api/students/:id/renew (Renew), students.js lines 882-1036.
Validates the required fields, checks seat/shift contention (excluding rows
of the member itself) and the requested locker, releases every locker bound
to the member, rewrites the Member head (amount_paid = cash + online,
due = fee - discount - amount_paid), binds the requested locker, replaces
the seat assignments of the member, and appends one new history row, all in
one transaction. -/
def renewStudent (db : DB) (now : ℤ) (sid : ℕ) (r : RenewReq) : Except ApiErr DB :=
  match r.membershipStart, r.membershipEnd, r.name, r.phone, r.branchId with
  | some ms, some me, some nm, some ph, some bid =>
    let fee := r.totalFee
    let amountPaid := r.cash + r.online
    let due := fee - r.discount - amountPaid
    let st := calcStatus me now
    match renewSeatCheck db r.seatId r.shiftIds sid with
    | .error e => .error e
    | .ok _ =>
      match editLockerCheck db r.lockerId sid with
      | .error e => .error e
      | .ok _ =>
        match db.students.find? (fun s => s.id == sid) with
        | none => .error .notFound
        | some _ =>
          let lockers1 := releaseLockersOf db.lockers sid
          let students1 := updById Student.id sid (fun s =>
            { s with
              name := nm
              address := r.address
              membershipStart := ms
              membershipEnd := me
              status := st
              email := r.email
              phone := some ph
              branchId := bid
              totalFee := fee
              amountPaid := amountPaid
              dueAmount := due
              cash := r.cash
              online := r.online
              securityMoney := r.securityMoney
              lockerId := r.lockerId
              discount := r.discount }) db.students
          let lockers2 :=
            match r.lockerId with
            | some lk => bindLocker lockers1 lk sid
            | none => lockers1
          let newH : HistoryRow :=
            { id := db.nextHistoryId, studentId := sid, name := nm,
              membershipStart := ms, membershipEnd := me, status := st,
              totalFee := fee, amountPaid := amountPaid, dueAmount := due,
              cash := r.cash, online := r.online, securityMoney := r.securityMoney,
              discount := r.discount, seatId := r.seatId,
              shiftId := r.shiftIds.head?, branchId := bid, lockerId := r.lockerId }
          .ok { db with
            students := students1
            lockers := lockers2
            assignments := (db.assignments.filter fun a => a.studentId != sid) ++
              r.shiftIds.map (fun sh => SeatAssignment.mk r.seatId sh sid)
            history := db.history ++ [newH]
            nextHistoryId := db.nextHistoryId + 1 }
  | _, _, _, _, _ => .error .validation

/-- PUT /api/students/:id/status (Deactivate/Reactivate), students.js lines
203-238.  isActive = none models a request whose is_active field fails the
typeof boolean test.  The flag is written unconditionally; only when the
desired flag is false are the seat assignments deleted and the locker
released (on both sides of the binding). -/
def setStatus (db : DB) (sid : ℕ) (isActive : Option Bool) : Except ApiErr DB :=
  match isActive with
  | none => .error .validation
  | some b =>
    if (db.students.find? (fun s => s.id == sid)).isNone then .error .notFound
    else if b then
      .ok { db with
        students := updById Student.id sid (fun s => { s with isActive := true }) db.students }
    else
      .ok { db with
        students := updById Student.id sid
          (fun s => { s with isActive := false, lockerId := none }) db.students
        assignments := db.assignments.filter fun a => a.studentId != sid
        lockers := releaseLockersOf db.lockers sid }

/-- DELETE /api/students/:id (Delete), students.js lines 823-838.  The
handler issues four independent pool queries with no BEGIN/COMMIT, so each
statement auto-commits as it runs.  faultAt injects a storage failure before
the statement with that index (0 = the assignments delete, 1 = the locker
release, 2 = the history delete, 3 = the student delete); the statements
already executed stay committed, which is why the function returns the
reached state alongside the result. -/
def deleteStudent (db : DB) (sid : ℕ) (faultAt : Option ℕ) : Except ApiErr Unit × DB :=
  if faultAt == some 0 then (.error .internal, db)
  else
    let db1 := { db with assignments := db.assignments.filter fun a => a.studentId != sid }
    if faultAt == some 1 then (.error .internal, db1)
    else
      let db2 := { db1 with lockers := releaseLockersOf db1.lockers sid }
      if faultAt == some 2 then (.error .internal, db2)
      else
        let db3 := { db2 with history := db2.history.filter fun r => r.studentId != sid }
        if faultAt == some 3 then (.error .internal, db3)
        else
          match db3.students.find? (fun s => s.id == sid) with
          | none => (.error .notFound, db3)
          | some _ =>
            (.ok (), { db3 with students := db3.students.filter fun s => s.id != sid })

/-- Pairwise-distinct ids in a table. -/
def distinctIds {α : Type} (idOf : α → ℕ) (l : List α) : Prop :=
  l.Pairwise fun a b => idOf a ≠ idOf b

instance {α : Type} (idOf : α → ℕ) (l : List α) : Decidable (distinctIds idOf l) := by
  unfold distinctIds; infer_instance

/-- Well-formed database: primary keys are unique in each table the
lifecycle operations update by id. -/
def wfDB (db : DB) : Prop :=
  distinctIds Student.id db.students ∧ distinctIds Locker.id db.lockers ∧
    distinctIds HistoryRow.id db.history

instance (db : DB) : Decidable (wfDB db) := by
  unfold wfDB; infer_instance

/-- The locker invariant exactly as the claim states it: the assigned flag
of a locker is true if and only if exactly one Member record references the
locker and that Member is the one the student_id column of the locker points
back to. -/
def lockerInvStated (db : DB) : Prop :=
  ∀ l ∈ db.lockers,
    (l.isAssigned = true ↔
      ∃ s ∈ db.students, s.lockerId = some l.id ∧ l.studentId = some s.id ∧
        ∀ t ∈ db.students, t.lockerId = some l.id → t = s)

instance (db : DB) : Decidable (lockerInvStated db) := by
  unfold lockerInvStated; infer_instance

/-- One locker satisfying the strengthened invariant: when assigned, exactly
one member references it and the back-pointer matches; when unassigned, no
member references it at all. -/
def lockerOk (students : List Student) (l : Locker) : Prop :=
  (l.isAssigned = true →
    ∃ s ∈ students, s.lockerId = some l.id ∧ l.studentId = some s.id ∧
      ∀ t ∈ students, t.lockerId = some l.id → t = s) ∧
  (l.isAssigned = false → ∀ t ∈ students, t.lockerId ≠ some l.id)

instance (students : List Student) (l : Locker) : Decidable (lockerOk students l) := by
  unfold lockerOk; infer_instance

/-- The strengthened locker invariant over the whole database. -/
def lockerInv (db : DB) : Prop :=
  ∀ l ∈ db.lockers, lockerOk db.students l

instance (db : DB) : Decidable (lockerInv db) := by
  unfold lockerInv; infer_instance

/-- The committed state of an Except-valued run, with a fallback for the
error case; used to name concrete post-states (okOr e d = the new state when
e succeeded). -/
def okOr (e : Except ApiErr DB) (d : DB) : DB :=
  match e with
  | .ok x => x
  | .error _ => d

/-- The empty database with fresh id counters at 1. -/
def dbEmpty : DB := ⟨[], [], [], [], [], [], 1, 1⟩

/-- A member row for concrete test states: id i, everything defaulted, fee
and due both equal to the due argument. -/
def mkStudent (i : ℕ) (due : ℚ) : Student :=
  { id := i, name := "S", email := none, phone := some "p", address := some "a",
    branchId := 1, membershipStart := 0, membershipEnd := 10, totalFee := due,
    amountPaid := 0, dueAmount := due, cash := 0, online := 0, securityMoney := 0,
    discount := 0, lockerId := none, isActive := true, status := .active }

/-- A history row for concrete test states: id i, member sid, fee and due
both equal to the due argument. -/
def mkHist (i sid : ℕ) (due : ℚ) : HistoryRow :=
  { id := i, studentId := sid, name := "S", membershipStart := 0,
    membershipEnd := 10, status := .active, totalFee := due, amountPaid := 0,
    dueAmount := due, cash := 0, online := 0, securityMoney := 0, discount := 0,
    seatId := none, shiftId := none, branchId := 1, lockerId := none }

/-- A fully populated Enroll request with no seat, shift or locker and all
money fields zero. -/
def baseEnroll : EnrollReq :=
  { name := some "S", email := none, phone := some "p", address := some "a",
    branchId := some 1, membershipStart := some 0, membershipEnd := some 10,
    totalFee := .num 0, amountPaid := .num 0, discount := .num 0, cash := .num 0,
    online := .num 0, securityMoney := .num 0, seatId := none, shiftIds := [],
    lockerId := none }

/-- A fully populated Edit request with no seat, shift or locker and all
money fields zero. -/
def baseEdit : EditReq :=
  { name := some "S", phone := some "p", address := some "a", email := none,
    branchId := some 1, membershipStart := some 0, membershipEnd := some 10,
    totalFee := 0, amountPaid := 0, discount := 0, cash := 0, online := 0,
    securityMoney := 0, seatId := none, shiftIds := [], lockerId := none }

/-- A fully populated Renew request with no seat, shift or locker and all
money fields zero. -/
def baseRenew : RenewReq :=
  { name := some "S", phone := some "p", email := none, address := some "a",
    branchId := some 1, membershipStart := some 0, membershipEnd := some 10,
    totalFee := 0, cash := 0, online := 0, securityMoney := 0, discount := 0,
    seatId := none, shiftIds := [], lockerId := none }

/-- C1 counterexample input: Enroll sending amount_paid = 50 while
cash = online = 0, fee = 100, discount = 0. -/
def c1req : EnrollReq :=
  { baseEnroll with totalFee := .num 100, amountPaid := .num 50 }

/-- C1 counterexample post-state. -/
def c1res : DB := okOr (enroll dbEmpty 0 c1req) dbEmpty

/-- C2 counterexample history row: a billing period whose due is -10 (such
rows are reachable because Edit persists fee - discount - amount_paid with
no range check). -/
def c2h : HistoryRow := mkHist 1 1 (-10)

/-- C2 counterexample state. -/
def c2db : DB := { dbEmpty with students := [mkStudent 1 (-10)], history := [c2h] }

/-- Concrete payment state for the C3 witness: one member (due 100) and one
matching history row (due 100). -/
def c3db : DB := { dbEmpty with students := [mkStudent 1 100], history := [mkHist 1 1 100] }

/-- C3 witness post-state: paying 40 by cash. -/
def c3res : DB := okOr (applyPayment c3db 1 (some 40) "cash") dbEmpty

/-- Concrete payment state for the C10 witness: the history row still owes
100 but the member head already has due 0, so a full payment of the row
drives the head due to -100. -/
def c10db : DB := { dbEmpty with students := [mkStudent 1 0], history := [mkHist 1 1 100] }

/-- C10 witness post-state: paying the full 100 of the history row online. -/
def c10res : DB := okOr (applyPayment c10db 1 (some 100) "online") dbEmpty

/-- Base state for the C4 and C9 witnesses: one enrolled member with one
history row, one seat and one shift. -/
def c4db : DB :=
  { dbEmpty with
    students := [mkStudent 1 0]
    history := [mkHist 1 1 0]
    seats := [1], schedules := [1], nextStudentId := 2, nextHistoryId := 2 }

/-- C4 witness post-state of an Edit. -/
def c4editRes : DB := okOr (editStudent c4db 0 1 baseEdit) dbEmpty

/-- C4 witness post-state of a Renew. -/
def c4renewRes : DB := okOr (renewStudent c4db 0 1 baseRenew) dbEmpty

/-- C5 counterexample state: locker 1 is unassigned, yet two member rows
still reference it.  This state satisfies the biconditional invariant as the
claim states it (the flag is false and it is not the case that exactly one
member references the locker), but Enroll can break the biconditional from
here. -/
def c5db : DB :=
  { dbEmpty with
    students := [{ mkStudent 1 0 with lockerId := some 1 },
                 { mkStudent 2 0 with lockerId := some 1 }]
    lockers := [⟨1, false, none⟩]
    nextStudentId := 3 }

/-- C5 counterexample request: enrolling a third member who asks for locker
1 (the availability check only reads the flag, which is false). -/
def c5req : EnrollReq := { baseEnroll with lockerId := some 1 }

/-- C5 counterexample post-state. -/
def c5res : DB := okOr (enroll c5db 0 c5req) dbEmpty

/-- State for the C5 amended witness: one member holding locker 1, one free
locker 2. -/
def c5wdb : DB :=
  { dbEmpty with
    students := [{ mkStudent 1 0 with lockerId := some 1 }]
    lockers := [⟨1, true, some 1⟩, ⟨2, false, none⟩]
    nextStudentId := 2 }

/-- C5 amended witness request: enroll a second member on locker 2. -/
def c5wreq : EnrollReq := { baseEnroll with lockerId := some 2 }

/-- C5 amended witness post-state. -/
def c5wres : DB := okOr (enroll c5wdb 0 c5wreq) dbEmpty

/-- C6 failing state: member 1 holds the assignment (seat 1, shift 1);
member 2 exists with no assignment. -/
def c6db : DB :=
  { dbEmpty with
    students := [mkStudent 1 0, mkStudent 2 0]
    assignments := [⟨some 1, 1, 1⟩]
    seats := [1], schedules := [1], nextStudentId := 3 }

/-- C6 failing input: member 2 edits requesting seat 1 on shift 1, which
member 1 already holds. -/
def c6req : EditReq := { baseEdit with seatId := some 1, shiftIds := [1] }

/-- C6 post-state: the Edit commits and (seat 1, shift 1) is now held by
both members. -/
def c6res : DB := okOr (editStudent c6db 0 2 c6req) dbEmpty

/-- C7 counterexample input: Edit sending total_fee = -100; the handler
parses it and persists it without any range check. -/
def c7editReq : EditReq := { baseEdit with totalFee := -100 }

/-- C7 counterexample post-state of the Edit. -/
def c7editRes : DB := okOr (editStudent c4db 0 1 c7editReq) dbEmpty

/-- C7 input showing Renew also skips validation: total_fee = -100. -/
def c7renewReq : RenewReq := { baseRenew with totalFee := -100 }

/-- C7 post-state of the Renew. -/
def c7renewRes : DB := okOr (renewStudent c4db 0 1 c7renewReq) dbEmpty

/-- C7 witness input: an Enroll request with a negative total_fee. -/
def c7badReq : EnrollReq := { baseEnroll with totalFee := .num (-5) }

/-- C8 failing state: member 1 has one assignment, a bound locker and two
history rows. -/
def c8db : DB :=
  { dbEmpty with
    students := [{ mkStudent 1 0 with lockerId := some 1 }]
    history := [mkHist 1 1 0, mkHist 2 1 0]
    lockers := [⟨1, true, some 1⟩]
    assignments := [⟨some 1, 1, 1⟩]
    nextStudentId := 2, nextHistoryId := 3 }

/-- C9 witness post-state: reactivating member 1. -/
def c9res : DB := okOr (setStatus c4db 1 (some true)) dbEmpty

/-- In a table with pairwise-distinct ids, two rows sharing an id are the
same row. -/
theorem distinct_unique {α : Type} (idOf : α → ℕ) {l : List α}
    (h : distinctIds idOf l) {x y : α} (hx : x ∈ l) (hy : y ∈ l)
    (hid : idOf x = idOf y) : x = y := by
  induction l with
  | nil => cases hx
  | cons a l ih =>
    rcases List.pairwise_cons.mp h with ⟨ha, hl⟩
    rcases List.mem_cons.mp hx with hx1 | hx1 <;>
      rcases List.mem_cons.mp hy with hy1 | hy1
    · exact hx1.trans hy1.symm
    · exact absurd (hx1 ▸ hid) (ha y hy1)
    · exact absurd (hy1 ▸ hid.symm) (ha x hx1)
    · exact ih hl hx1 hy1

/-- A row whose id differs from the update key survives updById unchanged. -/
theorem mem_updById_of_ne {α : Type} (idOf : α → ℕ) {i : ℕ} (f : α → α)
    {l : List α} {t : α} (ht : t ∈ l) (hne : idOf t ≠ i) :
    t ∈ updById idOf i f l := by
  unfold updById
  refine List.mem_map.mpr ⟨t, ht, ?_⟩
  simp [hne]

/-- The image of a matching row is in the updated table. -/
theorem mem_updById_self {α : Type} (idOf : α → ℕ) {i : ℕ} (f : α → α)
    {l : List α} {t : α} (ht : t ∈ l) (hid : idOf t = i) :
    f t ∈ updById idOf i f l := by
  unfold updById
  refine List.mem_map.mpr ⟨t, ht, ?_⟩
  simp [hid]

/-- Every row of an updated table is the (conditional) image of an original
row. -/
theorem mem_updById_elim {α : Type} (idOf : α → ℕ) {i : ℕ} (f : α → α)
    {l : List α} {t : α} (ht : t ∈ updById idOf i f l) :
    ∃ y ∈ l, t = if idOf y == i then f y else y := by
  rcases List.mem_map.mp ht with ⟨y, hy, heq⟩
  exact ⟨y, hy, heq.symm⟩

/-- Looking up the update key after updById finds the image of the original
find, provided the update preserves ids. -/
theorem find?_updById {α : Type} (idOf : α → ℕ) (i : ℕ) (f : α → α)
    (hf : ∀ x, idOf (f x) = idOf x) (l : List α) :
    (updById idOf i f l).find? (fun x => idOf x == i) =
      ((l.find? fun x => idOf x == i).map f) := by
  induction l with
  | nil => rfl
  | cons a l ih =>
    by_cases ha : idOf a = i
    · simp [updById, List.find?_cons, ha, hf]
    · simp [updById, List.find?_cons, ha, hf] at ih ⊢
      exact ih

/-- Characterisation of the members referencing a given locker after a
single-member update: either the reference comes from the updated member, or
it was already there on a member with a different id. -/
theorem updById_ref_elim {sid : ℕ} (f : Student → Student) {l : List Student}
    {s0 : Student} (hd : distinctIds Student.id l)
    (hs0 : l.find? (fun s => s.id == sid) = some s0)
    {t : Student} (ht : t ∈ updById Student.id sid f l) {lid : ℕ}
    (href : t.lockerId = some lid) :
    (t = f s0 ∧ (f s0).lockerId = some lid) ∨
      (t ∈ l ∧ t.id ≠ sid ∧ t.lockerId = some lid) := by
  have hs0mem : s0 ∈ l := List.mem_of_find?_eq_some hs0
  have hs0id : s0.id = sid := by
    have := List.find?_some hs0
    simpa using this
  rcases mem_updById_elim Student.id f ht with ⟨y, hy, heq⟩
  by_cases hyid : y.id = sid
  · have hy0 : y = s0 := distinct_unique Student.id hd hy hs0mem (hyid.trans hs0id.symm)
    subst hy0
    rw [if_pos (by simpa using hyid)] at heq
    exact Or.inl ⟨heq, heq ▸ href⟩
  · rw [if_neg (by simpa using hyid)] at heq
    subst heq
    exact Or.inr ⟨hy, hyid, href⟩

/-- Inversion of a successful ApplyPayment: the validations passed, the
fetched rows exist, and the committed state updates both the targeted
history row and the owning member head in the one returned state. -/
theorem applyPayment_ok_inv {db : DB} {hid : ℕ} {a : ℚ} {m : String} {db2 : DB}
    (hp : applyPayment db hid (some a) m = .ok db2) :
    ∃ h s, db.history.find? (fun r => r.id == hid) = some h ∧
      db.students.find? (fun t => t.id == h.studentId) = some s ∧
      0 < a ∧ (m = "cash" ∨ m = "online") ∧ a ≤ h.dueAmount + 1 / 100 ∧
      db2 = { db with
        students := updById Student.id h.studentId (fun st =>
          { st with
            cash := s.cash + (if m = "cash" then a else 0)
            online := s.online + (if m = "online" then a else 0)
            amountPaid := s.amountPaid + a
            dueAmount := s.dueAmount - a }) db.students
        history := updById HistoryRow.id hid (fun r =>
          { r with
            cash := h.cash + (if m = "cash" then a else 0)
            online := h.online + (if m = "online" then a else 0)
            amountPaid := h.amountPaid + a
            dueAmount := h.dueAmount - a }) db.history } := by
  unfold applyPayment at hp
  split at hp
  · exact absurd hp (by simp)
  next q hq =>
  injection hq with hq
  subst hq
  split at hp
  · exact absurd hp (by simp)
  next ha =>
  split at hp
  · exact absurd hp (by simp)
  next hm =>
  split at hp
  · exact absurd hp (by simp)
  next h hfind =>
  split at hp
  · exact absurd hp (by simp)
  next hdue =>
  split at hp
  · exact absurd hp (by simp)
  next s hsfind =>
  injection hp with hp2
  refine ⟨h, s, hfind, hsfind, ?_, ?_, ?_, hp2.symm⟩
  · linarith [not_le.mp ha]
  · by_contra hc
    push_neg at hc
    exact hm ⟨hc.1, hc.2⟩
  · linarith [not_lt.mp hdue]

/-- Claim C2, as stated, is false: a call whose amount exceeds the targeted
history entry due plus 0.01 can fail with ValidationError instead of
Conflict, because the amount-positivity guard runs first.  Concretely, with
the targeted entry at due = -10, a payment of -1/2 satisfies
amount > due + 0.01 yet is rejected by the amount guard. -/
theorem C2_counterexample :
    c2db.history.find? (fun r => r.id == 1) = some c2h ∧
      (-1 : ℚ) > c2h.dueAmount + 1 / 100 ∧
      applyPayment c2db 1 (some (-1 : ℚ)) "cash" = .error .validation ∧
      ApiErr.validation ≠ ApiErr.conflict := by
  refine ⟨rfl, by norm_num [c2h, mkHist], by rfl, by decide⟩

/-- Claim C2 (amended): every ApplyPayment call whose amount exceeds the
targeted history entry due plus the 0.01 tolerance fails and leaves the
state unchanged; the failure is Conflict whenever the amount is positive
and the channel is valid (otherwise the earlier amount/channel guards
report ValidationError). -/
theorem C2_overpay_rejected :
    ∀ (db : DB) (hid : ℕ) (a : ℚ) (m : String) (h : HistoryRow),
      db.history.find? (fun r => r.id == hid) = some h →
      a > h.dueAmount + 1 / 100 →
      applyPaymentRun db hid (some a) m = db ∧
        (∃ e, applyPayment db hid (some a) m = .error e) ∧
        (0 < a → (m = "cash" ∨ m = "online") →
          applyPayment db hid (some a) m = .error .conflict) := by
  intro db hid a m h hfind hover
  have hchar : applyPayment db hid (some a) m =
      if a ≤ 0 then .error .validation
      else if m ≠ "cash" ∧ m ≠ "online" then .error .validation
      else .error .conflict := by
    unfold applyPayment
    by_cases h1 : a ≤ 0
    · simp [h1]
    · by_cases h2 : m ≠ "cash" ∧ m ≠ "online"
      · simp [h1, h2]
      · simp [h1, h2, hfind]
        intro hcon
        exact absurd hover (not_lt.mpr (by linarith [hcon]))
  refine ⟨?_, ?_, ?_⟩
  · unfold applyPaymentRun
    rw [hchar]
    by_cases h1 : a ≤ 0
    · rw [if_pos h1]
    · rw [if_neg h1]
      by_cases h2 : m ≠ "cash" ∧ m ≠ "online"
      · rw [if_pos h2]
      · rw [if_neg h2]
  · rw [hchar]
    split
    · exact ⟨_, rfl⟩
    split
    · exact ⟨_, rfl⟩
    · exact ⟨_, rfl⟩
  · intro hpos hm
    rw [hchar, if_neg (not_le.mpr hpos), if_neg ?_]
    rcases hm with hm | hm <;> simp [hm]

/-- Witness for C2_overpay_rejected: on the concrete state with the history
row owing 100, a payment of 200 is rejected with Conflict and the state is
unchanged. -/
theorem C2_overpay_witness :
    c10db.history.find? (fun r => r.id == 1) = some (mkHist 1 1 100) ∧
      (200 : ℚ) > (mkHist 1 1 100).dueAmount + 1 / 100 ∧
      (applyPaymentRun c10db 1 (some 200) "cash" = c10db ∧
        (∃ e, applyPayment c10db 1 (some 200) "cash" = .error e) ∧
        (0 < (200 : ℚ) → ("cash" = "cash" ∨ "cash" = "online") →
          applyPayment c10db 1 (some 200) "cash" = .error .conflict)) :=
  ⟨rfl, by norm_num [mkHist],
    C2_overpay_rejected c10db 1 200 "cash" (mkHist 1 1 100) rfl
      (by norm_num [mkHist])⟩

/-- Claim C3: a successful ApplyPayment(historyId, amount, channel) updates
the targeted history row and the owning member head identically in the one
committed post-state: the channel column, amount_paid and due_amount move by
the same amount in both rows (the whole handler runs inside a single
BEGIN/COMMIT, so no state with only one row updated is ever committed). -/
theorem C3_payment_updates_both :
    ∀ (db : DB) (hid : ℕ) (a : ℚ) (m : String) (db2 : DB),
      applyPayment db hid (some a) m = .ok db2 →
      ∃ h s h2 s2,
        db.history.find? (fun r => r.id == hid) = some h ∧
        db.students.find? (fun t => t.id == h.studentId) = some s ∧
        db2.history.find? (fun r => r.id == hid) = some h2 ∧
        db2.students.find? (fun t => t.id == h.studentId) = some s2 ∧
        (m = "cash" ∨ m = "online") ∧
        h2.cash = h.cash + (if m = "cash" then a else 0) ∧
        s2.cash = s.cash + (if m = "cash" then a else 0) ∧
        h2.online = h.online + (if m = "online" then a else 0) ∧
        s2.online = s.online + (if m = "online" then a else 0) ∧
        h2.amountPaid = h.amountPaid + a ∧
        s2.amountPaid = s.amountPaid + a ∧
        h2.dueAmount = h.dueAmount - a ∧
        s2.dueAmount = s.dueAmount - a ∧
        db2.lockers = db.lockers ∧ db2.assignments = db.assignments := by
  intro db hid a m db2 hp
  rcases applyPayment_ok_inv hp with ⟨h, s, hfind, hsfind, hpos, hm, hle, hdb2⟩
  subst hdb2
  refine ⟨h, s,
    { h with
      cash := h.cash + (if m = "cash" then a else 0)
      online := h.online + (if m = "online" then a else 0)
      amountPaid := h.amountPaid + a
      dueAmount := h.dueAmount - a },
    { s with
      cash := s.cash + (if m = "cash" then a else 0)
      online := s.online + (if m = "online" then a else 0)
      amountPaid := s.amountPaid + a
      dueAmount := s.dueAmount - a },
    hfind, hsfind, ?_, ?_, hm, rfl, rfl, rfl, rfl, rfl, rfl, rfl, rfl, rfl, rfl⟩
  · change List.find? _ (updById HistoryRow.id hid _ db.history) = _
    rw [find?_updById, hfind]
    · rfl
    · intro x
      rfl
  · change List.find? _ (updById Student.id h.studentId _ db.students) = _
    rw [find?_updById, hsfind]
    · rfl
    · intro x
      rfl

/-- Witness for C3_payment_updates_both at the concrete 40-cash payment. -/
theorem C3_payment_witness :
    ∃ h s h2 s2,
      c3db.history.find? (fun r => r.id == 1) = some h ∧
      c3db.students.find? (fun t => t.id == h.studentId) = some s ∧
      c3res.history.find? (fun r => r.id == 1) = some h2 ∧
      c3res.students.find? (fun t => t.id == h.studentId) = some s2 ∧
      ("cash" = "cash" ∨ "cash" = "online") ∧
      h2.cash = h.cash + (if "cash" = "cash" then (40 : ℚ) else 0) ∧
      s2.cash = s.cash + (if "cash" = "cash" then (40 : ℚ) else 0) ∧
      h2.online = h.online + (if "cash" = "online" then (40 : ℚ) else 0) ∧
      s2.online = s.online + (if "cash" = "online" then (40 : ℚ) else 0) ∧
      h2.amountPaid = h.amountPaid + 40 ∧
      s2.amountPaid = s.amountPaid + 40 ∧
      h2.dueAmount = h.dueAmount - 40 ∧
      s2.dueAmount = s.dueAmount - 40 ∧
      c3res.lockers = c3db.lockers ∧ c3res.assignments = c3db.assignments :=
  C3_payment_updates_both c3db 1 40 "cash" c3res (by
    norm_num [applyPayment, c3db, c3res, okOr, mkStudent, mkHist, dbEmpty, updById])

/-- Claim C10: after a successful ApplyPayment the targeted history entry
ends at exactly its previous due minus the amount, and never below -1/100
(the tolerance); the member head due is decremented by the same amount with
no lower bound, because the acceptance check reads only the history row due
(the witness drives the head due to -100). -/
theorem C10_due_bounds :
    ∀ (db : DB) (hid : ℕ) (a : ℚ) (m : String) (db2 : DB),
      applyPayment db hid (some a) m = .ok db2 →
      ∃ h h2 s s2,
        db.history.find? (fun r => r.id == hid) = some h ∧
        db2.history.find? (fun r => r.id == hid) = some h2 ∧
        db.students.find? (fun t => t.id == h.studentId) = some s ∧
        db2.students.find? (fun t => t.id == h.studentId) = some s2 ∧
        h2.dueAmount = h.dueAmount - a ∧
        -(1 / 100) ≤ h2.dueAmount ∧
        s2.dueAmount = s.dueAmount - a := by
  intro db hid a m db2 hp
  rcases applyPayment_ok_inv hp with ⟨h, s, hfind, hsfind, hpos, hm, hle, hdb2⟩
  subst hdb2
  refine ⟨h,
    { h with
      cash := h.cash + (if m = "cash" then a else 0)
      online := h.online + (if m = "online" then a else 0)
      amountPaid := h.amountPaid + a
      dueAmount := h.dueAmount - a },
    s,
    { s with
      cash := s.cash + (if m = "cash" then a else 0)
      online := s.online + (if m = "online" then a else 0)
      amountPaid := s.amountPaid + a
      dueAmount := s.dueAmount - a },
    hfind, ?_, hsfind, ?_, rfl, ?_, rfl⟩
  · change List.find? _ (updById HistoryRow.id hid _ db.history) = _
    rw [find?_updById, hfind]
    · rfl
    · intro x
      rfl
  · change List.find? _ (updById Student.id h.studentId _ db.students) = _
    rw [find?_updById, hsfind]
    · rfl
    · intro x
      rfl
  · show -(1 / 100 : ℚ) ≤ h.dueAmount - a
    linarith

/-- Witness for C10_due_bounds: the concrete full payment of the 100-due
history row; the resulting member head due is -100, far below the -1/100
bound that protects the history row, showing the head is unbounded. -/
theorem C10_due_witness :
    (∃ h h2 s s2,
      c10db.history.find? (fun r => r.id == 1) = some h ∧
      c10res.history.find? (fun r => r.id == 1) = some h2 ∧
      c10db.students.find? (fun t => t.id == h.studentId) = some s ∧
      c10res.students.find? (fun t => t.id == h.studentId) = some s2 ∧
      h2.dueAmount = h.dueAmount - 100 ∧
      -(1 / 100) ≤ h2.dueAmount ∧
      s2.dueAmount = s.dueAmount - 100) ∧
      c10res.students.map Student.dueAmount = [-100] :=
  ⟨C10_due_bounds c10db 1 100 "online" c10res (by
      norm_num [applyPayment, c10db, c10res, okOr, mkStudent, mkHist, dbEmpty, updById]),
    by norm_num [applyPayment, c10db, c10res, okOr, mkStudent, mkHist, dbEmpty, updById]⟩

/-- Inversion of a successful Enroll: the required fields were present, all
six money inputs parsed as non-negative numbers, the seat and locker checks
passed, and the committed state is the pre-state plus the new member row,
its assignment rows, its history row, and the locker binding. -/
theorem enroll_ok_inv {db : DB} {now : ℤ} {r : EnrollReq} {db2 : DB}
    (hp : enroll db now r = .ok db2) :
    ∃ nm bid ms me fee paid disc csh onl sec,
      r.name = some nm ∧ r.branchId = some bid ∧ r.membershipStart = some ms ∧
      r.membershipEnd = some me ∧
      parseNonneg r.totalFee = some fee ∧ parseNonneg r.amountPaid = some paid ∧
      parseNonneg r.discount = some disc ∧ parseNonneg r.cash = some csh ∧
      parseNonneg r.online = some onl ∧ parseNonneg r.securityMoney = some sec ∧
      enrollSeatCheck db r.seatId r.shiftIds = .ok () ∧
      enrollLockerCheck db r.lockerId = .ok () ∧
      db2 = { db with
        students := db.students ++
          [{ id := db.nextStudentId, name := nm, email := r.email, phone := r.phone,
             address := r.address, branchId := bid, membershipStart := ms,
             membershipEnd := me, totalFee := fee, amountPaid := paid,
             dueAmount := fee - disc - paid, cash := csh, online := onl,
             securityMoney := sec, discount := disc, lockerId := r.lockerId,
             isActive := true, status := calcStatus me now }]
        lockers :=
          match r.lockerId with
          | some lk => bindLocker db.lockers lk db.nextStudentId
          | none => db.lockers
        assignments := db.assignments ++
          r.shiftIds.map (fun sh => SeatAssignment.mk r.seatId sh db.nextStudentId)
        history := db.history ++
          [{ id := db.nextHistoryId, studentId := db.nextStudentId, name := nm,
             membershipStart := ms, membershipEnd := me, status := calcStatus me now,
             totalFee := fee, amountPaid := paid, dueAmount := fee - disc - paid,
             cash := csh, online := onl, securityMoney := sec, discount := disc,
             seatId := r.seatId, shiftId := r.shiftIds.head?, branchId := bid,
             lockerId := r.lockerId }]
        nextStudentId := db.nextStudentId + 1
        nextHistoryId := db.nextHistoryId + 1 } := by
  unfold enroll at hp
  split at hp
  case _ nm bid ms me hnm hbid hms hme =>
    split at hp
    case _ fee paid disc csh onl sec hfee hpaid hdisc hcsh honl hsec =>
      split at hp
      · exact absurd hp (by simp)
      next hseat =>
      split at hp
      · exact absurd hp (by simp)
      next hlock =>
      injection hp with hp2
      exact ⟨nm, bid, ms, me, fee, paid, disc, csh, onl, sec, hnm, hbid, hms, hme,
        hfee, hpaid, hdisc, hcsh, honl, hsec, hseat, hlock, hp2.symm⟩
    case _ => exact absurd hp (by simp)
  case _ => exact absurd hp (by simp)

/-- Inversion of a successful Edit: required fields present, requested
locker check passed, the member row exists, and the committed state rewrites
the member head, swaps the lockers, replaces the assignments of the member
with the requested rows (no availability check), and overwrites the most
recent history row. -/
theorem edit_ok_inv {db : DB} {now : ℤ} {sid : ℕ} {r : EditReq} {db2 : DB}
    (hp : editStudent db now sid r = .ok db2) :
    ∃ nm ph ad bid ms me s0,
      r.name = some nm ∧ r.phone = some ph ∧ r.address = some ad ∧
      r.branchId = some bid ∧ r.membershipStart = some ms ∧
      r.membershipEnd = some me ∧
      editLockerCheck db r.lockerId sid = .ok () ∧
      db.students.find? (fun s => s.id == sid) = some s0 ∧
      db2 = { db with
        students := updById Student.id sid (fun s =>
          { s with
            name := nm
            email := r.email
            phone := some ph
            address := some ad
            branchId := bid
            membershipStart := ms
            membershipEnd := me
            totalFee := r.totalFee
            amountPaid := r.amountPaid
            dueAmount := r.totalFee - r.discount - r.amountPaid
            cash := r.cash
            online := r.online
            securityMoney := r.securityMoney
            status := calcStatus me now
            lockerId := r.lockerId
            discount := r.discount }) db.students
        lockers :=
          match r.lockerId with
          | some lk =>
            bindLocker
              (match s0.lockerId with
               | some pl => releaseLockerById db.lockers pl
               | none => db.lockers) lk sid
          | none =>
            match s0.lockerId with
            | some pl => releaseLockerById db.lockers pl
            | none => db.lockers
        assignments := (db.assignments.filter fun a => a.studentId != sid) ++
          r.shiftIds.map (fun sh => SeatAssignment.mk r.seatId sh sid)
        history := overwriteLatest db.history sid fun row =>
          { row with
            name := nm
            membershipStart := ms
            membershipEnd := me
            status := calcStatus me now
            totalFee := r.totalFee
            amountPaid := r.amountPaid
            dueAmount := r.totalFee - r.discount - r.amountPaid
            cash := r.cash
            online := r.online
            securityMoney := r.securityMoney
            discount := r.discount
            seatId := r.seatId
            shiftId := r.shiftIds.head?
            branchId := bid
            lockerId := r.lockerId } } := by
  unfold editStudent at hp
  split at hp
  case _ nm ph ad bid ms me hnm hph had hbid hms hme =>
    split at hp
    · exact absurd hp (by simp)
    next hlock =>
    split at hp
    · exact absurd hp (by simp)
    next s0 hs0 =>
    injection hp with hp2
    exact ⟨nm, ph, ad, bid, ms, me, s0, hnm, hph, had, hbid, hms, hme, hlock,
      hs0, hp2.symm⟩
  case _ => exact absurd hp (by simp)

/-- Inversion of a successful Renew: required fields present, seat and
locker checks passed, the member row exists, and the committed state
rewrites the member head (amount_paid = cash + online), releases and rebinds
the lockers, replaces the assignments of the member, and appends one new
history row. -/
theorem renew_ok_inv {db : DB} {now : ℤ} {sid : ℕ} {r : RenewReq} {db2 : DB}
    (hp : renewStudent db now sid r = .ok db2) :
    ∃ ms me nm ph bid s0,
      r.membershipStart = some ms ∧ r.membershipEnd = some me ∧
      r.name = some nm ∧ r.phone = some ph ∧ r.branchId = some bid ∧
      renewSeatCheck db r.seatId r.shiftIds sid = .ok () ∧
      editLockerCheck db r.lockerId sid = .ok () ∧
      db.students.find? (fun s => s.id == sid) = some s0 ∧
      db2 = { db with
        students := updById Student.id sid (fun s =>
          { s with
            name := nm
            address := r.address
            membershipStart := ms
            membershipEnd := me
            status := calcStatus me now
            email := r.email
            phone := some ph
            branchId := bid
            totalFee := r.totalFee
            amountPaid := r.cash + r.online
            dueAmount := r.totalFee - r.discount - (r.cash + r.online)
            cash := r.cash
            online := r.online
            securityMoney := r.securityMoney
            lockerId := r.lockerId
            discount := r.discount }) db.students
        lockers :=
          match r.lockerId with
          | some lk => bindLocker (releaseLockersOf db.lockers sid) lk sid
          | none => releaseLockersOf db.lockers sid
        assignments := (db.assignments.filter fun a => a.studentId != sid) ++
          r.shiftIds.map (fun sh => SeatAssignment.mk r.seatId sh sid)
        history := db.history ++
          [{ id := db.nextHistoryId, studentId := sid, name := nm,
             membershipStart := ms, membershipEnd := me,
             status := calcStatus me now, totalFee := r.totalFee,
             amountPaid := r.cash + r.online,
             dueAmount := r.totalFee - r.discount - (r.cash + r.online),
             cash := r.cash, online := r.online,
             securityMoney := r.securityMoney, discount := r.discount,
             seatId := r.seatId, shiftId := r.shiftIds.head?, branchId := bid,
             lockerId := r.lockerId }]
        nextHistoryId := db.nextHistoryId + 1 } := by
  unfold renewStudent at hp
  split at hp
  case _ ms me nm ph bid hms hme hnm hph hbid =>
    split at hp
    · exact absurd hp (by simp)
    next hseat =>
    split at hp
    · exact absurd hp (by simp)
    next hlock =>
    split at hp
    · exact absurd hp (by simp)
    next s0 hs0 =>
    injection hp with hp2
    exact ⟨ms, me, nm, ph, bid, s0, hms, hme, hnm, hph, hbid, hseat, hlock,
      hs0, hp2.symm⟩
  case _ => exact absurd hp (by simp)

/-- Inversion of a successful status update: the member exists, and the
committed state flips the flag; only when the desired flag is false are the
assignments deleted and the lockers released. -/
theorem setStatus_ok_inv {db : DB} {sid : ℕ} {b : Bool} {db2 : DB}
    (hp : setStatus db sid (some b) = .ok db2) :
    ∃ s0, db.students.find? (fun s => s.id == sid) = some s0 ∧
      ((b = true ∧
        db2 = { db with
          students := updById Student.id sid
            (fun s => { s with isActive := true }) db.students }) ∨
       (b = false ∧
        db2 = { db with
          students := updById Student.id sid
            (fun s => { s with isActive := false, lockerId := none }) db.students
          assignments := db.assignments.filter fun a => a.studentId != sid
          lockers := releaseLockersOf db.lockers sid })) := by
  unfold setStatus at hp
  split at hp
  · exact absurd hp (by simp)
  next b2 hb2 =>
  injection hb2 with hb2
  subst hb2
  split at hp
  · exact absurd hp (by simp)
  next hnn =>
  rcases hs0 : db.students.find? (fun s => s.id == sid) with _ | s0
  · rw [hs0] at hnn
    exact absurd rfl hnn
  refine ⟨s0, hs0, ?_⟩
  split at hp
  · injection hp with hp2
    exact Or.inl ⟨by assumption, hp2.symm⟩
  · injection hp with hp2
    exact Or.inr ⟨by simpa using (by assumption : ¬ b = true), hp2.symm⟩

/-- Claim C1, as stated, is false: Enroll persists
due = fee - discount - amount_paid with amount_paid taken from the request
rather than computed as cash + online, so a successful Enroll with
amount_paid = 50 and cash = online = 0 stores due = 50 while
fee - discount - (cash + online) = 100. -/
theorem C1_counterexample :
    (∃ db2, enroll dbEmpty 0 c1req = .ok db2) ∧
      c1res.students.length = 1 ∧
      ∀ s ∈ c1res.students,
        s.totalFee = 100 ∧ s.discount = 0 ∧ s.cash = 0 ∧ s.online = 0 ∧
        s.amountPaid = 50 ∧ s.dueAmount = 50 ∧
        s.dueAmount ≠ s.totalFee - s.discount - (s.cash + s.online) := by
  refine ⟨⟨c1res, ?_⟩, ?_, ?_⟩
  · norm_num [enroll, dbEmpty, c1req, c1res, okOr, baseEnroll, parseNonneg, JVal.parse,
      enrollSeatCheck, enrollLockerCheck, calcStatus]
  · norm_num [enroll, dbEmpty, c1req, c1res, okOr, baseEnroll, parseNonneg, JVal.parse,
      enrollSeatCheck, enrollLockerCheck, calcStatus]
  · intro s hs
    norm_num [enroll, dbEmpty, c1req, c1res, okOr, baseEnroll, parseNonneg, JVal.parse,
      enrollSeatCheck, enrollLockerCheck, calcStatus] at hs
    subst hs
    norm_num

/-- Claim C1 (amended): after every successful Enroll, Edit and Renew the
persisted member head satisfies due = fee - discount - amountPaid, where
amountPaid is the request amount_paid for Enroll and Edit and the computed
cash + online for Renew (so due = fee - discount - (cash + online) holds for
Renew); a successful ApplyPayment preserves both that formula and the
equation amountPaid = cash + online on the head whenever they held before. -/
theorem C1_due_formula :
    (∀ (db : DB) (now : ℤ) (r : EnrollReq) (db2 : DB), enroll db now r = .ok db2 →
      ∃ s, db2.students = db.students ++ [s] ∧
        s.dueAmount = s.totalFee - s.discount - s.amountPaid) ∧
    (∀ (db : DB) (now : ℤ) (sid : ℕ) (r : EditReq) (db2 : DB),
      editStudent db now sid r = .ok db2 →
      ∃ s2, db2.students.find? (fun t => t.id == sid) = some s2 ∧
        s2.dueAmount = s2.totalFee - s2.discount - s2.amountPaid) ∧
    (∀ (db : DB) (now : ℤ) (sid : ℕ) (r : RenewReq) (db2 : DB),
      renewStudent db now sid r = .ok db2 →
      ∃ s2, db2.students.find? (fun t => t.id == sid) = some s2 ∧
        s2.dueAmount = s2.totalFee - s2.discount - s2.amountPaid ∧
        s2.amountPaid = s2.cash + s2.online) ∧
    (∀ (db : DB) (hid : ℕ) (a : ℚ) (m : String) (db2 : DB) (h : HistoryRow)
      (s : Student),
      applyPayment db hid (some a) m = .ok db2 →
      db.history.find? (fun t => t.id == hid) = some h →
      db.students.find? (fun t => t.id == h.studentId) = some s →
      ∃ s2, db2.students.find? (fun t => t.id == h.studentId) = some s2 ∧
        (s.dueAmount = s.totalFee - s.discount - s.amountPaid →
          s2.dueAmount = s2.totalFee - s2.discount - s2.amountPaid) ∧
        (s.amountPaid = s.cash + s.online →
          s2.amountPaid = s2.cash + s2.online)) := by
  refine ⟨?_, ?_, ?_, ?_⟩
  · intro db now r db2 hp
    rcases enroll_ok_inv hp with ⟨nm, bid, ms, me, fee, paid, disc, csh, onl, sec,
      _, _, _, _, _, _, _, _, _, _, _, _, hdb2⟩
    subst hdb2
    exact ⟨_, rfl, rfl⟩
  · intro db now sid r db2 hp
    rcases edit_ok_inv hp with ⟨nm, ph, ad, bid, ms, me, s0,
      _, _, _, _, _, _, _, hs0, hdb2⟩
    subst hdb2
    refine ⟨{ s0 with
      name := nm
      email := r.email
      phone := some ph
      address := some ad
      branchId := bid
      membershipStart := ms
      membershipEnd := me
      totalFee := r.totalFee
      amountPaid := r.amountPaid
      dueAmount := r.totalFee - r.discount - r.amountPaid
      cash := r.cash
      online := r.online
      securityMoney := r.securityMoney
      status := calcStatus me now
      lockerId := r.lockerId
      discount := r.discount }, ?_, rfl⟩
    change List.find? _ (updById Student.id sid _ db.students) = _
    rw [find?_updById, hs0]
    · rfl
    · intro x
      rfl
  · intro db now sid r db2 hp
    rcases renew_ok_inv hp with ⟨ms, me, nm, ph, bid, s0,
      _, _, _, _, _, _, _, hs0, hdb2⟩
    subst hdb2
    refine ⟨{ s0 with
      name := nm
      address := r.address
      membershipStart := ms
      membershipEnd := me
      status := calcStatus me now
      email := r.email
      phone := some ph
      branchId := bid
      totalFee := r.totalFee
      amountPaid := r.cash + r.online
      dueAmount := r.totalFee - r.discount - (r.cash + r.online)
      cash := r.cash
      online := r.online
      securityMoney := r.securityMoney
      lockerId := r.lockerId
      discount := r.discount }, ?_, rfl, rfl⟩
    change List.find? _ (updById Student.id sid _ db.students) = _
    rw [find?_updById, hs0]
    · rfl
    · intro x
      rfl
  · intro db hid a m db2 h s hp hfind hsfind
    rcases applyPayment_ok_inv hp with ⟨h1, s1, hfind1, hsfind1, hpos, hm, hle, hdb2⟩
    rw [hfind1] at hfind
    injection hfind with hfind
    subst hfind
    rw [hsfind1] at hsfind
    injection hsfind with hsfind
    subst hsfind
    subst hdb2
    refine ⟨{ s1 with
      cash := s1.cash + (if m = "cash" then a else 0)
      online := s1.online + (if m = "online" then a else 0)
      amountPaid := s1.amountPaid + a
      dueAmount := s1.dueAmount - a }, ?_, ?_, ?_⟩
    · change List.find? _ (updById Student.id h1.studentId _ db.students) = _
      rw [find?_updById, hsfind1]
      · rfl
      · intro x
        rfl
    · intro hdue
      show s1.dueAmount - a = s1.totalFee - s1.discount - (s1.amountPaid + a)
      linarith
    · intro hsum
      show s1.amountPaid + a =
        s1.cash + (if m = "cash" then a else 0) +
          (s1.online + (if m = "online" then a else 0))
      rcases hm with hm | hm <;> subst hm
      · rw [if_pos rfl, if_neg (by decide)]
        linarith
      · rw [if_neg (by decide), if_pos rfl]
        linarith

/-- Witness for C1_due_formula: the concrete Enroll from the counterexample
state also satisfies the amended formula (due 50 = fee 100 - discount 0 -
amountPaid 50). -/
theorem C1_due_witness :
    ∃ s, c1res.students = dbEmpty.students ++ [s] ∧
      s.dueAmount = s.totalFee - s.discount - s.amountPaid :=
  C1_due_formula.1 dbEmpty 0 c1req c1res (by
    norm_num [enroll, dbEmpty, c1req, c1res, okOr, baseEnroll, parseNonneg, JVal.parse,
      enrollSeatCheck, enrollLockerCheck, calcStatus])

/-- Claim C7, as stated, is false: Edit performs no numeric validation at
all; a request with total_fee = -100 succeeds and persists the negative fee
(state changed, no ValidationError). -/
theorem C7_counterexample :
    editStudent c4db 0 1 c7editReq = .ok c7editRes ∧
      ((-100 : ℚ) < 0) ∧
      c7editRes.students.map Student.totalFee = [-100] ∧
      c4db.students.map Student.totalFee = [0] := by
  refine ⟨?_, by norm_num, ?_, ?_⟩ <;>
    norm_num [editStudent, c4db, c7editReq, c7editRes, okOr, baseEdit, mkStudent, mkHist,
      dbEmpty, editLockerCheck, updById, calcStatus, overwriteLatest, latestHistId]

/-- Claim C7 (amended): only Enroll validates the money inputs.  For Enroll,
each of fee, discount, cash and online that is NaN or negative aborts with
ValidationError before any write; Edit and Renew parse these inputs with no
range check, and a negative total_fee is accepted and persisted by both. -/
theorem C7_validation :
    (∀ (db : DB) (now : ℤ) (r : EnrollReq),
      (parseNonneg r.totalFee = none ∨ parseNonneg r.discount = none ∨
        parseNonneg r.cash = none ∨ parseNonneg r.online = none) →
      enroll db now r = .error .validation) ∧
    (editStudent c4db 0 1 c7editReq = .ok c7editRes ∧
      c7editRes.students.map Student.totalFee = [-100]) ∧
    (renewStudent c4db 0 1 c7renewReq = .ok c7renewRes ∧
      c7renewRes.students.map Student.totalFee = [-100]) := by
  refine ⟨?_, ⟨?_, ?_⟩, ⟨?_, ?_⟩⟩
  · intro db now r hbad
    unfold enroll
    split
    case _ nm bid ms me hnm hbid hms hme =>
      split
      case _ fee paid disc csh onl sec hfee hpaid hdisc hcsh honl hsec =>
        rcases hbad with hb | hb | hb | hb
        · rw [hb] at hfee
          exact absurd hfee (by simp)
        · rw [hb] at hdisc
          exact absurd hdisc (by simp)
        · rw [hb] at hcsh
          exact absurd hcsh (by simp)
        · rw [hb] at honl
          exact absurd honl (by simp)
      case _ => rfl
    case _ => rfl
  · norm_num [editStudent, c4db, c7editReq, c7editRes, okOr, baseEdit, mkStudent, mkHist,
      dbEmpty, editLockerCheck, updById, calcStatus, overwriteLatest, latestHistId]
  · norm_num [editStudent, c4db, c7editReq, c7editRes, okOr, baseEdit, mkStudent, mkHist,
      dbEmpty, editLockerCheck, updById, calcStatus, overwriteLatest, latestHistId]
  · norm_num [renewStudent, c4db, c7renewReq, c7renewRes, okOr, baseRenew, mkStudent,
      mkHist, dbEmpty, editLockerCheck, renewSeatCheck, releaseLockersOf, updById,
      calcStatus]
  · norm_num [renewStudent, c4db, c7renewReq, c7renewRes, okOr, baseRenew, mkStudent,
      mkHist, dbEmpty, editLockerCheck, renewSeatCheck, releaseLockersOf, updById,
      calcStatus]

/-- Witness for C7_validation: the concrete Enroll request with
total_fee = -5 is rejected with ValidationError. -/
theorem C7_validation_witness :
    (parseNonneg c7badReq.totalFee = none ∨ parseNonneg c7badReq.discount = none ∨
      parseNonneg c7badReq.cash = none ∨ parseNonneg c7badReq.online = none) ∧
      enroll dbEmpty 0 c7badReq = .error .validation :=
  ⟨Or.inl (by norm_num [c7badReq, baseEnroll, parseNonneg, JVal.parse]),
    C7_validation.1 dbEmpty 0 c7badReq
      (Or.inl (by norm_num [c7badReq, baseEnroll, parseNonneg, JVal.parse]))⟩

/-- Claim C6 names a check the Edit handler does not perform: with member 1
holding the assignment (seat 1, shift 1), an Edit by member 2 requesting the
same (seat, shift) succeeds and commits a second assignment row for the
pair, instead of failing with Conflict and leaving the state unchanged
(Enroll and Renew both guard this; Edit deletes the old rows of the member
and inserts the requested ones with no availability check). -/
theorem C6_double_booking :
    (⟨some 1, 1, 1⟩ : SeatAssignment) ∈ c6db.assignments ∧
      editStudent c6db 0 2 c6req = .ok c6res ∧
      (⟨some 1, 1, 1⟩ : SeatAssignment) ∈ c6res.assignments ∧
      (⟨some 1, 1, 2⟩ : SeatAssignment) ∈ c6res.assignments := by
  refine ⟨by norm_num [c6db, dbEmpty], ?_, ?_, ?_⟩ <;>
    norm_num [editStudent, c6db, c6req, c6res, okOr, baseEdit, mkStudent, dbEmpty,
      editLockerCheck, updById, calcStatus, overwriteLatest, latestHistId]

/-- Claim C8 requires the Delete cascade to be one all-or-nothing
transaction; the handler instead issues four independent auto-committed pool
queries.  With a storage failure injected at the final statement (the
member-row delete), the call reports an error while the previously executed
removals stay committed: the member still exists but the two history rows,
the assignment and the locker binding are gone.  The fault-free run shows
the intended full cascade. -/
theorem C8_nontransactional_delete :
    c8db.history.length = 2 ∧
      (deleteStudent c8db 1 (some 3)).1 = .error .internal ∧
      (deleteStudent c8db 1 (some 3)).2.history = [] ∧
      (deleteStudent c8db 1 (some 3)).2.assignments = [] ∧
      (∃ s ∈ (deleteStudent c8db 1 (some 3)).2.students, s.id = 1) ∧
      (deleteStudent c8db 1 none).1 = .ok () ∧
      (deleteStudent c8db 1 none).2.students = [] ∧
      (deleteStudent c8db 1 none).2.history = [] := by
  refine ⟨rfl, ?_, ?_, ?_, ?_, ?_, ?_, ?_⟩ <;>
    norm_num [deleteStudent, c8db, mkStudent, mkHist, dbEmpty, releaseLockersOf]

/-- Claim C9: a status update with desired flag true changes only the
is_active flag of the targeted member: every other table is untouched and
every member keeps all identity, money, date, locker and status fields;
releases happen only on the false branch, which removes the assignments of
the member, clears every locker bound to it, and nulls its locker
reference. -/
theorem C9_reactivation_frame :
    (∀ (db : DB) (sid : ℕ) (db2 : DB), setStatus db sid (some true) = .ok db2 →
      db2.assignments = db.assignments ∧ db2.lockers = db.lockers ∧
      db2.history = db.history ∧ db2.seats = db.seats ∧
      db2.schedules = db.schedules ∧
      ∀ s ∈ db.students,
        ∃ s2 ∈ db2.students, s2.id = s.id ∧ s2.name = s.name ∧
          s2.totalFee = s.totalFee ∧ s2.discount = s.discount ∧
          s2.cash = s.cash ∧ s2.online = s.online ∧
          s2.amountPaid = s.amountPaid ∧ s2.dueAmount = s.dueAmount ∧
          s2.securityMoney = s.securityMoney ∧
          s2.membershipStart = s.membershipStart ∧
          s2.membershipEnd = s.membershipEnd ∧ s2.lockerId = s.lockerId ∧
          s2.status = s.status ∧
          (s.id ≠ sid → s2.isActive = s.isActive) ∧
          (s.id = sid → s2.isActive = true)) ∧
    (∀ (db : DB) (sid : ℕ) (db2 : DB), setStatus db sid (some false) = .ok db2 →
      (∀ a ∈ db2.assignments, a.studentId ≠ sid) ∧
      (∀ l ∈ db2.lockers, l.studentId ≠ some sid) ∧
      (∀ s2 ∈ db2.students, s2.id = sid → s2.lockerId = none)) := by
  constructor
  · intro db sid db2 hp
    rcases setStatus_ok_inv hp with ⟨s0, hs0, hcase⟩
    rcases hcase with ⟨_, hdb2⟩ | ⟨hfalse, _⟩
    · subst hdb2
      refine ⟨rfl, rfl, rfl, rfl, rfl, ?_⟩
      intro s hs
      by_cases hsid : s.id = sid
      · refine ⟨{ s with isActive := true },
          mem_updById_self Student.id _ hs hsid, rfl, rfl, rfl, rfl, rfl, rfl,
          rfl, rfl, rfl, rfl, rfl, rfl, rfl, ?_, ?_⟩
        · intro hne
          exact absurd hsid hne
        · intro _
          rfl
      · refine ⟨s, mem_updById_of_ne Student.id _ hs hsid, rfl, rfl, rfl, rfl,
          rfl, rfl, rfl, rfl, rfl, rfl, rfl, rfl, rfl, ?_, ?_⟩
        · intro _
          rfl
        · intro he
          exact absurd he hsid
    · cases hfalse
  · intro db sid db2 hp
    rcases setStatus_ok_inv hp with ⟨s0, hs0, hcase⟩
    rcases hcase with ⟨htrue, _⟩ | ⟨_, hdb2⟩
    · cases htrue
    · subst hdb2
      refine ⟨?_, ?_, ?_⟩
      · intro a ha
        have := (List.mem_filter.mp ha).2
        simpa using this
      · intro l hl
        rcases List.mem_map.mp hl with ⟨l0, hl0, heq⟩
        by_cases hb : (l0.studentId == some sid) = true
        · rw [if_pos hb] at heq
          rw [← heq]
          simp
        · rw [if_neg hb] at heq
          rw [← heq]
          simpa using hb
      · intro s2 hs2 hid
        rcases mem_updById_elim Student.id _ hs2 with ⟨t, ht, heq⟩
        by_cases hb : (t.id == sid) = true
        · rw [if_pos hb] at heq
          rw [heq]
        · rw [if_neg hb] at heq
          subst heq
          exact absurd (by simpa using hid) hb

/-- Witness for C9_reactivation_frame: reactivating member 1 in the concrete
state changes nothing but the flag. -/
theorem C9_reactivation_witness :
    c9res.assignments = c4db.assignments ∧ c9res.lockers = c4db.lockers ∧
      c9res.history = c4db.history ∧ c9res.seats = c4db.seats ∧
      c9res.schedules = c4db.schedules ∧
      ∀ s ∈ c4db.students,
        ∃ s2 ∈ c9res.students, s2.id = s.id ∧ s2.name = s.name ∧
          s2.totalFee = s.totalFee ∧ s2.discount = s.discount ∧
          s2.cash = s.cash ∧ s2.online = s.online ∧
          s2.amountPaid = s.amountPaid ∧ s2.dueAmount = s.dueAmount ∧
          s2.securityMoney = s.securityMoney ∧
          s2.membershipStart = s.membershipStart ∧
          s2.membershipEnd = s.membershipEnd ∧ s2.lockerId = s.lockerId ∧
          s2.status = s.status ∧
          (s.id ≠ 1 → s2.isActive = s.isActive) ∧
          (s.id = 1 → s2.isActive = true) :=
  C9_reactivation_frame.1 c4db 1 c9res (by
    norm_num [setStatus, c4db, c9res, okOr, mkStudent, mkHist, dbEmpty, updById])

/-- updById leaves the length of any filtered selection unchanged when the
update preserves the filtered property. -/
theorem filter_length_updById {α : Type} (idOf : α → ℕ) (i : ℕ) (f : α → α)
    (p : α → Bool) (hf : ∀ x, p (f x) = p x) (l : List α) :
    ((updById idOf i f l).filter p).length = (l.filter p).length := by
  induction l with
  | nil => rfl
  | cons a l ih =>
    simp only [updById, List.map_cons, List.filter_cons] at ih ⊢
    have hpa : p (if idOf a == i then f a else a) = p a := by
      by_cases ha : (idOf a == i) = true
      · rw [if_pos ha, hf]
      · rw [if_neg ha]
    rw [hpa]
    by_cases hpv : p a = true
    · simp only [hpv, if_true, List.length_cons]
      exact congrArg (· + 1) ih
    · simp only [hpv, if_false]
      exact ih

/-- Claim C4: a successful Edit leaves every member history row count
unchanged (it touches at most the single most-recently-created row of the
edited member; every other row survives as it was), and a successful Renew
appends exactly one new row for the renewed member, leaving every
pre-existing row untouched. -/
theorem C4_history_counts :
    (∀ (db : DB) (now : ℤ) (sid : ℕ) (r : EditReq) (db2 : DB),
      editStudent db now sid r = .ok db2 →
      (∀ sid2 : ℕ, (db2.history.filter fun t => t.studentId == sid2).length =
        (db.history.filter fun t => t.studentId == sid2).length) ∧
      ∀ row ∈ db.history, latestHistId db.history sid ≠ some row.id →
        row ∈ db2.history) ∧
    (∀ (db : DB) (now : ℤ) (sid : ℕ) (r : RenewReq) (db2 : DB),
      renewStudent db now sid r = .ok db2 →
      ∃ newRow, db2.history = db.history ++ [newRow] ∧ newRow.studentId = sid ∧
        (db2.history.filter fun t => t.studentId == sid).length =
          (db.history.filter fun t => t.studentId == sid).length + 1 ∧
        ∀ row ∈ db.history, row ∈ db2.history) := by
  constructor
  · intro db now sid r db2 hp
    rcases edit_ok_inv hp with ⟨nm, ph, ad, bid, ms, me, s0,
      _, _, _, _, _, _, _, hs0, hdb2⟩
    subst hdb2
    constructor
    · intro sid2
      show ((overwriteLatest db.history sid _).filter _).length = _
      unfold overwriteLatest
      rcases hl : latestHistId db.history sid with _ | tid
      · rfl
      · change ((updById HistoryRow.id tid _ db.history).filter _).length = _
        apply filter_length_updById
        intro x
        rfl
    · intro row hrow hne
      show row ∈ overwriteLatest db.history sid _
      unfold overwriteLatest
      rcases hl : latestHistId db.history sid with _ | tid
      · exact hrow
      · refine mem_updById_of_ne HistoryRow.id _ hrow ?_
        intro hid
        rw [hl, hid] at hne
        exact hne rfl
  · intro db now sid r db2 hp
    rcases renew_ok_inv hp with ⟨ms, me, nm, ph, bid, s0,
      _, _, _, _, _, _, _, hs0, hdb2⟩
    subst hdb2
    refine ⟨_, rfl, rfl, ?_, ?_⟩
    · show ((db.history ++ [_]).filter _).length = _
      rw [List.filter_append, List.length_append]
      simp
    · intro row hrow
      exact List.mem_append_left _ hrow

/-- Witness for C4_history_counts: the concrete Edit keeps the single
history row of member 1 (count stays 1) and the concrete Renew appends
exactly one row (count becomes 2). -/
theorem C4_history_witness :
    ((∀ sid2 : ℕ, (c4editRes.history.filter fun t => t.studentId == sid2).length =
        (c4db.history.filter fun t => t.studentId == sid2).length) ∧
      ∀ row ∈ c4db.history, latestHistId c4db.history 1 ≠ some row.id →
        row ∈ c4editRes.history) ∧
    (∃ newRow, c4renewRes.history = c4db.history ++ [newRow] ∧
      newRow.studentId = 1 ∧
      (c4renewRes.history.filter fun t => t.studentId == 1).length =
        (c4db.history.filter fun t => t.studentId == 1).length + 1 ∧
      ∀ row ∈ c4db.history, row ∈ c4renewRes.history) :=
  ⟨C4_history_counts.1 c4db 0 1 baseEdit c4editRes (by
      norm_num [editStudent, c4db, c4editRes, okOr, baseEdit, mkStudent, mkHist,
        dbEmpty, editLockerCheck, updById, calcStatus, overwriteLatest, latestHistId]),
    C4_history_counts.2 c4db 0 1 baseRenew c4renewRes (by
      norm_num [renewStudent, c4db, c4renewRes, okOr, baseRenew, mkStudent, mkHist,
        dbEmpty, editLockerCheck, renewSeatCheck, releaseLockersOf, updById,
        calcStatus])⟩

/-- The strengthened locker invariant implies the biconditional invariant as
the claim states it. -/
theorem lockerInv_implies_stated (db : DB) (h : lockerInv db) : lockerInvStated db := by
  intro l hl
  constructor
  · intro ha
    exact (h l hl).1 ha
  · rintro ⟨s, hs, href, hback, huniq⟩
    by_contra hna
    have hfalse : l.isAssigned = false := by
      cases hb : l.isAssigned
      · rfl
      · exact absurd hb hna
    exact (h l hl).2 hfalse s hs href

/-- Facts carried by a successful find?: membership and the id equation. -/
theorem find?_id_facts {α : Type} (idOf : α → ℕ) {l : List α} {i : ℕ} {x : α}
    (h : l.find? (fun y => idOf y == i) = some x) : x ∈ l ∧ idOf x = i := by
  refine ⟨List.mem_of_find?_eq_some h, ?_⟩
  have := List.find?_some h
  simpa using this

/-- A failed find? means no row satisfies the predicate. -/
theorem find?_id_none {α : Type} (idOf : α → ℕ) {l : List α} {i : ℕ}
    (h : l.find? (fun y => idOf y == i) = none) : ∀ x ∈ l, idOf x ≠ i := by
  intro x hx he
  have := List.find?_eq_none.mp h x hx
  simp [he] at this

/-- An update that changes neither the id nor the locker reference of any
member preserves lockerOk for every locker. -/
theorem lockerOk_update_samelid {sid : ℕ} (f : Student → Student)
    (hf : ∀ x, (f x).lockerId = x.lockerId ∧ (f x).id = x.id)
    {students : List Student} {l : Locker} (h : lockerOk students l) :
    lockerOk (updById Student.id sid f students) l := by
  constructor
  · intro ha
    rcases h.1 ha with ⟨s, hs, href, hback, huniq⟩
    by_cases hsid : s.id = sid
    · refine ⟨f s, mem_updById_self Student.id f hs hsid, ?_, ?_, ?_⟩
      · rw [(hf s).1, href]
      · rw [(hf s).2, ← hback]
      · intro t ht htref
        rcases mem_updById_elim Student.id f ht with ⟨t0, ht0, heq⟩
        have ht0ref : t0.lockerId = some l.id := by
          by_cases hb : (t0.id == sid) = true
          · rw [if_pos hb] at heq
            rw [heq] at htref
            rw [(hf t0).1] at htref
            exact htref
          · rw [if_neg hb] at heq
            rw [heq] at htref
            exact htref
        have ht0s : t0 = s := huniq t0 ht0 ht0ref
        subst ht0s
        rw [if_pos (by simpa using hsid)] at heq
        exact heq
    · refine ⟨s, mem_updById_of_ne Student.id f hs hsid, href, hback, ?_⟩
      intro t ht htref
      rcases mem_updById_elim Student.id f ht with ⟨t0, ht0, heq⟩
      have ht0ref : t0.lockerId = some l.id := by
        by_cases hb : (t0.id == sid) = true
        · rw [if_pos hb] at heq
          rw [heq] at htref
          rw [(hf t0).1] at htref
          exact htref
        · rw [if_neg hb] at heq
          rw [heq] at htref
          exact htref
      have ht0s : t0 = s := huniq t0 ht0 ht0ref
      subst ht0s
      rw [if_neg (by simpa using hsid)] at heq
      exact heq
  · intro hna t ht htref
    rcases mem_updById_elim Student.id f ht with ⟨t0, ht0, heq⟩
    have ht0ref : t0.lockerId = some l.id := by
      by_cases hb : (t0.id == sid) = true
      · rw [if_pos hb] at heq
        rw [heq] at htref
        rw [(hf t0).1] at htref
        exact htref
      · rw [if_neg hb] at heq
        rw [heq] at htref
        exact htref
    exact h.2 hna t0 ht0 ht0ref

/-- A single-member update preserves lockerOk for a locker that neither the
old nor the new version of the member references. -/
theorem lockerOk_update_not_target {sid : ℕ} (f : Student → Student)
    {students : List Student} {s0 : Student} {l : Locker}
    (hwf : distinctIds Student.id students)
    (hs0 : students.find? (fun s => s.id == sid) = some s0)
    (hnl : (f s0).lockerId ≠ some l.id)
    (hs0l : s0.lockerId ≠ some l.id)
    (hold : lockerOk students l) :
    lockerOk (updById Student.id sid f students) l := by
  rcases find?_id_facts Student.id hs0 with ⟨hs0mem, hs0id⟩
  constructor
  · intro ha
    rcases hold.1 ha with ⟨s, hs, href, hback, huniq⟩
    have hsne : s.id ≠ sid := by
      intro he
      have : s = s0 := distinct_unique Student.id hwf hs hs0mem (he.trans hs0id.symm)
      rw [this] at href
      exact hs0l href
    refine ⟨s, mem_updById_of_ne Student.id f hs hsne, href, hback, ?_⟩
    intro t ht htref
    rcases updById_ref_elim f hwf hs0 ht htref with ⟨he, hr⟩ | ⟨ht0, htne, htr⟩
    · exact absurd hr hnl
    · exact huniq t ht0 htr
  · intro hna t ht htref
    rcases updById_ref_elim f hwf hs0 ht htref with ⟨he, hr⟩ | ⟨ht0, htne, htr⟩
    · exact absurd hr hnl
    · exact hold.2 hna t ht0 htr

/-- Releasing the locker the updated member previously held: after the
update the released locker is referenced by nobody, provided the new
version of the member references something else. -/
theorem lockerOk_update_released {sid : ℕ} (f : Student → Student)
    {students : List Student} {s0 : Student} {l : Locker}
    (hwf : distinctIds Student.id students)
    (hs0 : students.find? (fun s => s.id == sid) = some s0)
    (hnl : (f s0).lockerId ≠ some l.id)
    (hs0l : s0.lockerId = some l.id)
    (hold : lockerOk students l) :
    lockerOk (updById Student.id sid f students)
      { l with isAssigned := false, studentId := none } := by
  rcases find?_id_facts Student.id hs0 with ⟨hs0mem, hs0id⟩
  constructor
  · intro ha
    simp at ha
  · intro _ t ht htref
    have htref2 : t.lockerId = some l.id := htref
    rcases updById_ref_elim f hwf hs0 ht htref2 with ⟨he, hr⟩ | ⟨ht0, htne, htr⟩
    · exact absurd hr hnl
    · cases hb : l.isAssigned
      · exact hold.2 hb t ht0 htr
      · rcases hold.1 hb with ⟨s, hs, href, hback, huniq⟩
        have h1 : t = s := huniq t ht0 htr
        have h2 : s0 = s := huniq s0 hs0mem hs0l
        rw [h1, ← h2] at htne
        exact htne hs0id

/-- Binding a locker to the updated member: if nobody but possibly the
member itself referenced the locker before, the bound locker satisfies
lockerOk afterwards. -/
theorem lockerOk_update_bound {sid : ℕ} (f : Student → Student)
    {students : List Student} {s0 : Student} {l : Locker}
    (hwf : distinctIds Student.id students)
    (hs0 : students.find? (fun s => s.id == sid) = some s0)
    (hnew : (f s0).lockerId = some l.id)
    (hfid : (f s0).id = sid)
    (hnoref : ∀ t ∈ students, t.lockerId = some l.id → t.id = sid) :
    lockerOk (updById Student.id sid f students)
      { l with isAssigned := true, studentId := some sid } := by
  rcases find?_id_facts Student.id hs0 with ⟨hs0mem, hs0id⟩
  constructor
  · intro _
    refine ⟨f s0, mem_updById_self Student.id f hs0mem hs0id, hnew, ?_, ?_⟩
    · show some sid = some (f s0).id
      rw [hfid]
    · intro t ht htref
      have htref2 : t.lockerId = some l.id := htref
      rcases updById_ref_elim f hwf hs0 ht htref2 with ⟨he, _⟩ | ⟨ht0, htne, htr⟩
      · exact he
      · exact absurd (hnoref t ht0 htr) htne
  · intro hna
    simp at hna

/-- Appending a member who does not reference a locker preserves its
lockerOk. -/
theorem lockerOk_append_nonref {students : List Student} {x : Student} {l : Locker}
    (hx : x.lockerId ≠ some l.id) (hold : lockerOk students l) :
    lockerOk (students ++ [x]) l := by
  constructor
  · intro ha
    rcases hold.1 ha with ⟨s, hs, href, hback, huniq⟩
    refine ⟨s, List.mem_append_left _ hs, href, hback, ?_⟩
    intro t ht htref
    rcases List.mem_append.mp ht with ht | ht
    · exact huniq t ht htref
    · rw [List.mem_singleton.mp ht] at htref
      exact absurd htref hx
  · intro hna t ht htref
    rcases List.mem_append.mp ht with ht | ht
    · exact hold.2 hna t ht htref
    · rw [List.mem_singleton.mp ht] at htref
      exact absurd htref hx

/-- Appending a member and binding a previously unreferenced locker to it
yields lockerOk for the bound locker. -/
theorem lockerOk_append_bound {students : List Student} {x : Student} {l : Locker}
    (hx : x.lockerId = some l.id)
    (hnoref : ∀ t ∈ students, t.lockerId ≠ some l.id) :
    lockerOk (students ++ [x]) { l with isAssigned := true, studentId := some x.id } := by
  constructor
  · intro _
    refine ⟨x, List.mem_append_right _ (List.mem_singleton_self x), hx, rfl, ?_⟩
    intro t ht htref
    rcases List.mem_append.mp ht with ht | ht
    · exact absurd htref (hnoref t ht)
    · exact List.mem_singleton.mp ht
  · intro hna
    simp at hna

/-- Inversion of the Enroll locker check: the locker exists and is not
assigned. -/
theorem enrollLockerCheck_some_inv {db : DB} {lk : ℕ}
    (h : enrollLockerCheck db (some lk) = .ok ()) :
    ∃ l0, db.lockers.find? (fun l => l.id == lk) = some l0 ∧
      l0.isAssigned = false := by
  unfold enrollLockerCheck at h
  split at h
  next heq => exact absurd heq (by simp)
  next lk2 heq =>
  injection heq with heq
  subst heq
  split at h
  · exact absurd h (by simp)
  next l0 hfind =>
  split at h
  · exact absurd h (by simp)
  next hna =>
  exact ⟨l0, hfind, by simpa using hna⟩

/-- Inversion of the Edit/Renew locker check: the locker exists and is
either unassigned or already bound to the member being edited. -/
theorem editLockerCheck_some_inv {db : DB} {lk sid : ℕ}
    (h : editLockerCheck db (some lk) sid = .ok ()) :
    ∃ l0, db.lockers.find? (fun l => l.id == lk) = some l0 ∧
      (l0.isAssigned = false ∨ l0.studentId = some sid) := by
  unfold editLockerCheck at h
  split at h
  next heq => exact absurd heq (by simp)
  next lk2 heq =>
  injection heq with heq
  subst heq
  split at h
  · exact absurd h (by simp)
  next l0 hfind =>
  split at h
  · exact absurd h (by simp)
  next hna =>
  refine ⟨l0, hfind, ?_⟩
  cases hb : l0.isAssigned
  · exact Or.inl rfl
  · right
    rw [hb] at hna
    simpa using hna

/-- Enroll preserves the strengthened locker invariant. -/
theorem enroll_preserves_lockerInv {db : DB} {now : ℤ} {r : EnrollReq} {db2 : DB}
    (hwf : wfDB db) (hinv : lockerInv db) (hp : enroll db now r = .ok db2) :
    lockerInv db2 := by
  rcases enroll_ok_inv hp with ⟨nm, bid, ms, me, fee, paid, disc, csh, onl, sec,
    _, _, _, _, _, _, _, _, _, _, _, hlock, hdb2⟩
  subst hdb2
  intro l2 hl2
  rcases hrl : r.lockerId with _ | lk
  · rw [hrl] at hl2
    have hl2b : l2 ∈ db.lockers := hl2
    exact lockerOk_append_nonref (by simp) (hinv l2 hl2b)
  · rw [hrl] at hl2 hlock
    rcases enrollLockerCheck_some_inv hlock with ⟨l0, hfind0, hl0na⟩
    rcases find?_id_facts Locker.id hfind0 with ⟨hl0mem, hl0id⟩
    have hl2b : l2 ∈ updById Locker.id lk
        (fun l => { l with isAssigned := true, studentId := some db.nextStudentId })
        db.lockers := hl2
    rcases mem_updById_elim Locker.id _ hl2b with ⟨l, hl, heq⟩
    by_cases hb : (l.id == lk) = true
    · rw [if_pos hb] at heq
      subst heq
      have hlid : l.id = lk := by simpa using hb
      have hll0 : l = l0 := distinct_unique Locker.id hwf.2.1 hl hl0mem
        (hlid.trans hl0id.symm)
      apply lockerOk_append_bound
      · show some lk = some l.id
        rw [hlid]
      · exact (hinv l hl).2 (by rw [hll0]; exact hl0na)
    · rw [if_neg hb] at heq
      rw [heq]
      refine lockerOk_append_nonref ?_ (hinv l hl)
      intro hcon
      have : lk = l.id := by simpa using hcon
      exact hb (by simp [this])

/-- Edit preserves the strengthened locker invariant. -/
theorem edit_preserves_lockerInv {db : DB} {now : ℤ} {sid : ℕ} {r : EditReq}
    {db2 : DB} (hwf : wfDB db) (hinv : lockerInv db)
    (hp : editStudent db now sid r = .ok db2) : lockerInv db2 := by
  rcases edit_ok_inv hp with ⟨nm, ph, ad, bid, ms, me, s0,
    _, _, _, _, _, _, hlock, hs0, hdb2⟩
  subst hdb2
  have hs0id : s0.id = sid := (find?_id_facts Student.id hs0).2
  intro l2 hl2
  rcases hrl : r.lockerId with _ | lk
  · -- no locker requested; the updated member references nothing
    rw [hrl] at hl2
    rcases hs0l : s0.lockerId with _ | pl
    · rw [hs0l] at hl2
      have hl2b : l2 ∈ db.lockers := hl2
      refine lockerOk_update_not_target _ hwf.1 hs0 ?_ ?_ (hinv l2 hl2b)
      · simp
      · simp [hs0l]
    · rw [hs0l] at hl2
      have hl2b : l2 ∈ updById Locker.id pl
          (fun l => { l with isAssigned := false, studentId := none }) db.lockers := hl2
      rcases mem_updById_elim Locker.id _ hl2b with ⟨l, hl, heq⟩
      by_cases hb : (l.id == pl) = true
      · rw [if_pos hb] at heq
        subst heq
        have hlid : l.id = pl := by simpa using hb
        refine lockerOk_update_released _ hwf.1 hs0 ?_ ?_ (hinv l hl)
        · simp
        · rw [hs0l, hlid]
      · rw [if_neg hb] at heq
        rw [heq]
        refine lockerOk_update_not_target _ hwf.1 hs0 ?_ ?_ (hinv l hl)
        · simp
        · rw [hs0l]
          intro hcon
          have : pl = l.id := by simpa using hcon
          exact hb (by simp [this])
  · -- locker lk requested
    rw [hrl] at hl2 hlock
    rcases editLockerCheck_some_inv hlock with ⟨l0, hfind0, hl0cases⟩
    rcases find?_id_facts Locker.id hfind0 with ⟨hl0mem, hl0id⟩
    have hnoref0 : ∀ t ∈ db.students, t.lockerId = some lk → t.id = sid := by
      intro t ht htref
      cases hb0 : l0.isAssigned
      · exact absurd (show t.lockerId = some l0.id by rw [hl0id]; exact htref)
          ((hinv l0 hl0mem).2 hb0 t ht)
      · rcases (hinv l0 hl0mem).1 hb0 with ⟨s, hs, href, hback, huniq⟩
        have hts : t = s := huniq t ht (by rw [hl0id]; exact htref)
        rcases hl0cases with hun | hsid2
        · rw [hun] at hb0
          simp at hb0
        · rw [hsid2] at hback
          injection hback with hback
          rw [hts]
          exact hback.symm
    rcases hs0l : s0.lockerId with _ | pl
    · -- member previously held no locker
      rw [hs0l] at hl2
      have hl2b : l2 ∈ updById Locker.id lk
          (fun l => { l with isAssigned := true, studentId := some sid }) db.lockers := hl2
      rcases mem_updById_elim Locker.id _ hl2b with ⟨l, hl, heq⟩
      by_cases hb : (l.id == lk) = true
      · rw [if_pos hb] at heq
        subst heq
        have hlid : l.id = lk := by simpa using hb
        refine lockerOk_update_bound _ hwf.1 hs0 ?_ ?_ ?_
        · show some lk = some l.id
          rw [hlid]
        · exact hs0id
        · intro t ht htref
          exact hnoref0 t ht (by rw [← hlid]; exact htref)
      · rw [if_neg hb] at heq
        rw [heq]
        refine lockerOk_update_not_target _ hwf.1 hs0 ?_ ?_ (hinv l hl)
        · intro hcon
          have : lk = l.id := by simpa using hcon
          exact hb (by simp [this])
        · simp [hs0l]
    · -- member previously held locker pl
      rw [hs0l] at hl2
      have hl2b : l2 ∈ updById Locker.id lk
          (fun l => { l with isAssigned := true, studentId := some sid })
          (updById Locker.id pl
            (fun l => { l with isAssigned := false, studentId := none }) db.lockers) := hl2
      rcases mem_updById_elim Locker.id _ hl2b with ⟨l1, hl1, heq2⟩
      rcases mem_updById_elim Locker.id _ hl1 with ⟨l, hl, heq1⟩
      by_cases hbp : (l.id == pl) = true
      · rw [if_pos hbp] at heq1
        subst heq1
        by_cases hbk : (l.id == lk) = true
        · rw [if_pos (show (({ l with isAssigned := false, studentId := none} :
              Locker).id == lk) = true from hbk)] at heq2
          subst heq2
          have hlid : l.id = lk := by simpa using hbk
          refine lockerOk_update_bound _ hwf.1 hs0 ?_ ?_ ?_
          · show some lk = some l.id
            rw [hlid]
          · exact hs0id
          · intro t ht htref
            exact hnoref0 t ht (by rw [← hlid]; exact htref)
        · rw [if_neg (show ¬ (({ l with isAssigned := false, studentId := none} :
              Locker).id == lk) = true from hbk)] at heq2
          rw [heq2]
          have hlid : l.id = pl := by simpa using hbp
          refine lockerOk_update_released _ hwf.1 hs0 ?_ ?_ (hinv l hl)
          · intro hcon
            have : lk = l.id := by simpa using hcon
            exact hbk (by simp [this])
          · rw [hs0l, hlid]
      · rw [if_neg hbp] at heq1
        rw [heq1] at heq2
        by_cases hbk : (l.id == lk) = true
        · rw [if_pos hbk] at heq2
          subst heq2
          have hlid : l.id = lk := by simpa using hbk
          refine lockerOk_update_bound _ hwf.1 hs0 ?_ ?_ ?_
          · show some lk = some l.id
            rw [hlid]
          · exact hs0id
          · intro t ht htref
            exact hnoref0 t ht (by rw [← hlid]; exact htref)
        · rw [if_neg hbk] at heq2
          rw [heq2]
          refine lockerOk_update_not_target _ hwf.1 hs0 ?_ ?_ (hinv l hl)
          · intro hcon
            have : lk = l.id := by simpa using hcon
            exact hbk (by simp [this])
          · rw [hs0l]
            intro hcon
            have : pl = l.id := by simpa using hcon
            exact hbp (by simp [this])

/-- Under the invariant, every member referencing a locker that is
unassigned or bound to sid has id sid. -/
theorem noref_of_locker {db : DB} {sid : ℕ} (hinv : lockerInv db) {l : Locker}
    (hl : l ∈ db.lockers)
    (hcase : l.isAssigned = false ∨ l.studentId = some sid) :
    ∀ t ∈ db.students, t.lockerId = some l.id → t.id = sid := by
  intro t ht htref
  cases hb0 : l.isAssigned
  · exact absurd htref ((hinv l hl).2 hb0 t ht)
  · rcases (hinv l hl).1 hb0 with ⟨s, hs, href, hback, huniq⟩
    have hts : t = s := huniq t ht htref
    rcases hcase with hun | hsid2
    · rw [hun] at hb0
      simp at hb0
    · rw [hsid2] at hback
      injection hback with hback
      rw [hts]
      exact hback.symm

/-- Under the invariant, the member with id sid does not reference a locker
whose student_id column differs from sid. -/
theorem s0_not_ref_of_other {db : DB} {sid : ℕ} (hinv : lockerInv db)
    {l : Locker} (hl : l ∈ db.lockers) {s0 : Student} (hs0mem : s0 ∈ db.students)
    (hs0id : s0.id = sid) (hbs : l.studentId ≠ some sid) :
    s0.lockerId ≠ some l.id := by
  intro hcon
  cases hb0 : l.isAssigned
  · exact (hinv l hl).2 hb0 s0 hs0mem hcon
  · rcases (hinv l hl).1 hb0 with ⟨s, hs, href, hback, huniq⟩
    have he : s0 = s := huniq s0 hs0mem hcon
    rw [← he, hs0id] at hback
    exact hbs hback

/-- Releasing a locker that, after a single-member update, nobody
references: the released locker satisfies lockerOk. -/
theorem lockerOk_release_general {sid : ℕ} (f : Student → Student)
    {students : List Student} {s0 : Student} {l : Locker}
    (hwf : distinctIds Student.id students)
    (hs0 : students.find? (fun s => s.id == sid) = some s0)
    (hnl : (f s0).lockerId ≠ some l.id)
    (hnoref : ∀ t ∈ students, t.lockerId = some l.id → t.id = sid) :
    lockerOk (updById Student.id sid f students)
      { l with isAssigned := false, studentId := none } := by
  constructor
  · intro ha
    simp at ha
  · intro _ t ht htref
    have htref2 : t.lockerId = some l.id := htref
    rcases updById_ref_elim f hwf hs0 ht htref2 with ⟨he, hr⟩ | ⟨ht0, htne, htr⟩
    · exact absurd hr hnl
    · exact htne (hnoref t ht0 htr)

/-- Renew preserves the strengthened locker invariant. -/
theorem renew_preserves_lockerInv {db : DB} {now : ℤ} {sid : ℕ} {r : RenewReq}
    {db2 : DB} (hwf : wfDB db) (hinv : lockerInv db)
    (hp : renewStudent db now sid r = .ok db2) : lockerInv db2 := by
  rcases renew_ok_inv hp with ⟨ms, me, nm, ph, bid, s0,
    _, _, _, _, _, _, hlock, hs0, hdb2⟩
  subst hdb2
  have hs0facts := find?_id_facts Student.id hs0
  intro l2 hl2
  rcases hrl : r.lockerId with _ | lk
  · rw [hrl] at hl2
    have hl2b : l2 ∈ db.lockers.map (fun l =>
        if l.studentId == some sid then
          { l with isAssigned := false, studentId := none } else l) := hl2
    rcases List.mem_map.mp hl2b with ⟨l, hl, heq⟩
    by_cases hbs : (l.studentId == some sid) = true
    · rw [if_pos hbs] at heq
      subst heq
      refine lockerOk_release_general _ hwf.1 hs0 ?_ ?_
      · simp
      · exact noref_of_locker hinv hl (Or.inr (by simpa using hbs))
    · rw [if_neg hbs] at heq
      subst heq
      refine lockerOk_update_not_target _ hwf.1 hs0 ?_ ?_ (hinv l hl)
      · simp
      · exact s0_not_ref_of_other hinv hl hs0facts.1 hs0facts.2 (by simpa using hbs)
  · rw [hrl] at hl2 hlock
    rcases editLockerCheck_some_inv hlock with ⟨l0, hfind0, hl0cases⟩
    rcases find?_id_facts Locker.id hfind0 with ⟨hl0mem, hl0id⟩
    have hnoref0 : ∀ t ∈ db.students, t.lockerId = some lk → t.id = sid := by
      intro t ht htref
      exact noref_of_locker hinv hl0mem hl0cases t ht (by rw [hl0id]; exact htref)
    have hl2b : l2 ∈ updById Locker.id lk
        (fun l => { l with isAssigned := true, studentId := some sid })
        (db.lockers.map (fun l =>
          if l.studentId == some sid then
            { l with isAssigned := false, studentId := none } else l)) := hl2
    rcases mem_updById_elim Locker.id _ hl2b with ⟨l1, hl1, heq2⟩
    rcases List.mem_map.mp hl1 with ⟨l, hl, heq1⟩
    by_cases hbs : (l.studentId == some sid) = true
    · rw [if_pos hbs] at heq1
      subst heq1
      by_cases hbk : (l.id == lk) = true
      · rw [if_pos (show (({ l with isAssigned := false, studentId := none } :
            Locker).id == lk) = true from hbk)] at heq2
        subst heq2
        have hlid : l.id = lk := by simpa using hbk
        refine lockerOk_update_bound _ hwf.1 hs0 ?_ ?_ ?_
        · show some lk = some l.id
          rw [hlid]
        · exact hs0facts.2
        · intro t ht htref
          exact hnoref0 t ht (by rw [← hlid]; exact htref)
      · rw [if_neg (show ¬ (({ l with isAssigned := false, studentId := none } :
            Locker).id == lk) = true from hbk)] at heq2
        rw [heq2]
        refine lockerOk_release_general _ hwf.1 hs0 ?_ ?_
        · intro hcon
          have : lk = l.id := by simpa using hcon
          exact hbk (by simp [this])
        · exact noref_of_locker hinv hl (Or.inr (by simpa using hbs))
    · rw [if_neg hbs] at heq1
      subst heq1
      by_cases hbk : (l.id == lk) = true
      · rw [if_pos hbk] at heq2
        subst heq2
        have hlid : l.id = lk := by simpa using hbk
        refine lockerOk_update_bound _ hwf.1 hs0 ?_ ?_ ?_
        · show some lk = some l.id
          rw [hlid]
        · exact hs0facts.2
        · intro t ht htref
          exact hnoref0 t ht (by rw [← hlid]; exact htref)
      · rw [if_neg hbk] at heq2
        rw [heq2]
        refine lockerOk_update_not_target _ hwf.1 hs0 ?_ ?_ (hinv l hl)
        · intro hcon
          have : lk = l.id := by simpa using hcon
          exact hbk (by simp [this])
        · exact s0_not_ref_of_other hinv hl hs0facts.1 hs0facts.2 (by simpa using hbs)

/-- Status updates (both directions) preserve the strengthened locker
invariant. -/
theorem setStatus_preserves_lockerInv {db : DB} {sid : ℕ} {b : Bool} {db2 : DB}
    (hwf : wfDB db) (hinv : lockerInv db) (hp : setStatus db sid (some b) = .ok db2) :
    lockerInv db2 := by
  rcases setStatus_ok_inv hp with ⟨s0, hs0, hcase⟩
  have hs0facts := find?_id_facts Student.id hs0
  rcases hcase with ⟨_, hdb2⟩ | ⟨_, hdb2⟩
  · subst hdb2
    intro l2 hl2
    have hl2b : l2 ∈ db.lockers := hl2
    exact lockerOk_update_samelid (fun s => { s with isActive := true })
      (fun x => ⟨rfl, rfl⟩) (hinv l2 hl2b)
  · subst hdb2
    intro l2 hl2
    have hl2b : l2 ∈ db.lockers.map (fun l =>
        if l.studentId == some sid then
          { l with isAssigned := false, studentId := none } else l) := hl2
    rcases List.mem_map.mp hl2b with ⟨l, hl, heq⟩
    by_cases hbs : (l.studentId == some sid) = true
    · rw [if_pos hbs] at heq
      subst heq
      refine lockerOk_release_general _ hwf.1 hs0 ?_ ?_
      · simp
      · exact noref_of_locker hinv hl (Or.inr (by simpa using hbs))
    · rw [if_neg hbs] at heq
      subst heq
      refine lockerOk_update_not_target _ hwf.1 hs0 ?_ ?_ (hinv l hl)
      · simp
      · exact s0_not_ref_of_other hinv hl hs0facts.1 hs0facts.2 (by simpa using hbs)

/-- Reduction of the fault-free Delete run to its two outcomes. -/
theorem deleteStudent_none_eq (db : DB) (sid : ℕ) :
    deleteStudent db sid none =
      (match db.students.find? (fun s => s.id == sid) with
       | none =>
         (Except.error ApiErr.notFound,
          { db with
            assignments := db.assignments.filter fun a => a.studentId != sid
            lockers := releaseLockersOf db.lockers sid
            history := db.history.filter fun r2 => r2.studentId != sid })
       | some _ =>
         (Except.ok (),
          { db with
            students := db.students.filter fun s => s.id != sid
            assignments := db.assignments.filter fun a => a.studentId != sid
            lockers := releaseLockersOf db.lockers sid
            history := db.history.filter fun r2 => r2.studentId != sid })) := rfl

/-- The fault-free Delete run preserves the strengthened locker invariant,
whether or not the member exists. -/
theorem delete_preserves_lockerInv {db : DB} {sid : ℕ}
    (hwf : wfDB db) (hinv : lockerInv db) :
    lockerInv (deleteStudent db sid none).2 := by
  rw [deleteStudent_none_eq]
  rcases hfs : db.students.find? (fun s => s.id == sid) with _ | s0
  all_goals rw [hfs]
  · intro l2 hl2
    have hl2b : l2 ∈ db.lockers.map (fun l =>
        if l.studentId == some sid then
          { l with isAssigned := false, studentId := none } else l) := hl2
    rcases List.mem_map.mp hl2b with ⟨l, hl, heq⟩
    have habs : ∀ x ∈ db.students, x.id ≠ sid := find?_id_none Student.id hfs
    by_cases hbs : (l.studentId == some sid) = true
    · rw [if_pos hbs] at heq
      subst heq
      constructor
      · intro ha
        simp at ha
      · intro _ t ht htref
        exact absurd
          (noref_of_locker hinv hl (Or.inr (by simpa using hbs)) t ht htref)
          (habs t ht)
    · rw [if_neg hbs] at heq
      subst heq
      exact hinv l hl
  · intro l2 hl2
    have hl2b : l2 ∈ db.lockers.map (fun l =>
        if l.studentId == some sid then
          { l with isAssigned := false, studentId := none } else l) := hl2
    rcases List.mem_map.mp hl2b with ⟨l, hl, heq⟩
    by_cases hbs : (l.studentId == some sid) = true
    · rw [if_pos hbs] at heq
      subst heq
      constructor
      · intro ha
        simp at ha
      · intro _ t ht htref
        have ht2 := List.mem_filter.mp ht
        have := noref_of_locker hinv hl (Or.inr (by simpa using hbs)) t ht2.1 htref
        rw [this] at ht2
        simp at ht2
    · rw [if_neg hbs] at heq
      subst heq
      constructor
      · intro ha
        rcases (hinv l hl).1 ha with ⟨s, hs, href, hback, huniq⟩
        have hsne : s.id ≠ sid := by
          intro he
          apply hbs
          rw [hback, he]
          simp
        refine ⟨s, List.mem_filter.mpr ⟨hs, by simpa using hsne⟩, href, hback, ?_⟩
        intro t ht htref
        exact huniq t (List.mem_filter.mp ht).1 htref
      · intro hna t ht htref
        exact (hinv l hl).2 hna t (List.mem_filter.mp ht).1 htref

/-- Claim C5, as stated, is false as a preservation property: the
biconditional invariant (flag true iff exactly one referencing member with
matching back-pointer) is not inductive.  In the concrete state c5db the
locker flag is false and it is not the case that exactly one member
references the locker (two do), so the stated biconditional holds; Enroll
only reads the flag, accepts the locker, and produces a state with the flag
true and three referencing members, where the biconditional fails. -/
theorem C5_counterexample :
    wfDB c5db ∧ lockerInvStated c5db ∧ enroll c5db 0 c5req = .ok c5res ∧
      ¬ lockerInvStated c5res := by
  refine ⟨by decide, by decide, ?_, ?_⟩
  · norm_num [enroll, c5db, c5req, c5res, okOr, baseEnroll, mkStudent, dbEmpty,
      parseNonneg, JVal.parse, enrollSeatCheck, enrollLockerCheck, bindLocker,
      updById, calcStatus]
  · intro hinv
    have hstu : c5res.students = [{ mkStudent 1 0 with lockerId := some 1 },
        { mkStudent 2 0 with lockerId := some 1 },
        { mkStudent 3 0 with lockerId := some 1 }] := by
      norm_num [enroll, c5db, c5req, c5res, okOr, baseEnroll, mkStudent, dbEmpty,
        parseNonneg, JVal.parse, enrollSeatCheck, enrollLockerCheck, bindLocker,
        updById, calcStatus]
    have hlk : c5res.lockers = [⟨1, true, some 3⟩] := by
      norm_num [enroll, c5db, c5req, c5res, okOr, baseEnroll, mkStudent, dbEmpty,
        parseNonneg, JVal.parse, enrollSeatCheck, enrollLockerCheck, bindLocker,
        updById, calcStatus]
    have h1 := hinv ⟨1, true, some 3⟩ (by rw [hlk]; exact List.mem_singleton_self _)
    rcases h1.mp rfl with ⟨s, hs, href, hback, huniq⟩
    rw [hstu] at huniq
    have e1 := huniq { mkStudent 1 0 with lockerId := some 1 } (by simp) rfl
    have e2 := huniq { mkStudent 2 0 with lockerId := some 1 } (by simp) rfl
    have he : ({ mkStudent 1 0 with lockerId := some 1 } : Student) =
        { mkStudent 2 0 with lockerId := some 1 } := e1.trans e2.symm
    have hid := congrArg Student.id he
    simp [mkStudent] at hid

/-- Claim C5 (amended): every lifecycle operation preserves the strengthened
locker invariant (flag true implies exactly one referencing member with the
back-pointer matching; flag false implies no referencing member at all) on
well-formed databases, and the strengthened invariant implies the
biconditional invariant exactly as the claim states it, so along any run
from a state satisfying the strengthened invariant the stated invariant
holds after every operation.  Delete is covered in its fault-free run (the
claim of atomicity for the cascade is settled separately as C8). -/
theorem C5_locker_preservation :
    (∀ db : DB, lockerInv db → lockerInvStated db) ∧
    (∀ (db : DB) (now : ℤ) (r : EnrollReq) (db2 : DB),
      wfDB db → lockerInv db → enroll db now r = .ok db2 → lockerInv db2) ∧
    (∀ (db : DB) (now : ℤ) (sid : ℕ) (r : EditReq) (db2 : DB),
      wfDB db → lockerInv db → editStudent db now sid r = .ok db2 → lockerInv db2) ∧
    (∀ (db : DB) (now : ℤ) (sid : ℕ) (r : RenewReq) (db2 : DB),
      wfDB db → lockerInv db → renewStudent db now sid r = .ok db2 → lockerInv db2) ∧
    (∀ (db : DB) (sid : ℕ) (b : Bool) (db2 : DB),
      wfDB db → lockerInv db → setStatus db sid (some b) = .ok db2 → lockerInv db2) ∧
    (∀ (db : DB) (sid : ℕ),
      wfDB db → lockerInv db → lockerInv (deleteStudent db sid none).2) :=
  ⟨lockerInv_implies_stated,
   fun _ _ _ _ hwf hinv hp => enroll_preserves_lockerInv hwf hinv hp,
   fun _ _ _ _ _ hwf hinv hp => edit_preserves_lockerInv hwf hinv hp,
   fun _ _ _ _ _ hwf hinv hp => renew_preserves_lockerInv hwf hinv hp,
   fun _ _ _ _ hwf hinv hp => setStatus_preserves_lockerInv hwf hinv hp,
   fun _ _ hwf hinv => delete_preserves_lockerInv hwf hinv⟩

/-- Witness for C5_locker_preservation: enrolling a member on the free
locker 2 of the concrete well-formed state keeps the strengthened invariant
and hence the stated biconditional. -/
theorem C5_locker_witness :
    wfDB c5wdb ∧ lockerInv c5wdb ∧ enroll c5wdb 0 c5wreq = .ok c5wres ∧
      lockerInv c5wres ∧ lockerInvStated c5wres := by
  have henroll : enroll c5wdb 0 c5wreq = .ok c5wres := by
    norm_num [enroll, c5wdb, c5wreq, c5wres, okOr, baseEnroll, mkStudent, dbEmpty,
      parseNonneg, JVal.parse, enrollSeatCheck, enrollLockerCheck, bindLocker,
      updById, calcStatus]
  have hpres : lockerInv c5wres :=
    C5_locker_preservation.2.1 c5wdb 0 c5wreq c5wres (by decide) (by decide) henroll
  exact ⟨by decide, by decide, henroll, hpres, C5_locker_preservation.1 c5wres hpres⟩
